import Mathlib

/-!
Verification development for the CONTAM-Next multizone airflow and
contaminant-transport engine.  The C++ sources under src/engine are shallowly
embedded: doubles are modelled as exact rationals wherever the computation is
rational, and as real numbers where the source relies on pow and sqrt; calls
into the Eigen linear-algebra library and into std::exp are modelled as
function parameters.  Each definition carries a comment naming the source
function it embeds.
-/

namespace Contam

/-! ### Physical and solver constants (src/engine/src/utils/Constants.h) -/

def GRAVITY : ℚ := 980665 / 100000
def R_AIR : ℚ := 287055 / 1000
def P_ATM : ℚ := 101325
def T_REF : ℚ := 29315 / 100
def CONVERGENCE_TOL : ℚ := 1 / 100000
def MAX_ITERATIONS : ℕ := 100
def DP_MIN : ℚ := 1 / 1000
def RELAX_FACTOR_SUR : ℚ := 3 / 4
def TR_INITIAL_RADIUS : ℚ := 1000
def TR_MIN_RADIUS : ℚ := 1 / 100
def TR_MAX_RADIUS : ℚ := 1000000

/-! ### Nodes (src/engine/src/core/Node.h, Node.cpp) -/

inductive NodeType where
  | Normal
  | Phantom
  | Ambient
  | CFD
deriving DecidableEq, Repr, Inhabited

structure Node where
  id : ℤ := 0
  type : NodeType := .Normal
  pressure : ℚ := 0
  temperature : ℚ := T_REF
  elevation : ℚ := 0
  volume : ℚ := 0
  density : ℚ := 0
deriving Repr, Inhabited, DecidableEq

/-- Node::isKnownPressure: only Ambient nodes have prescribed pressure. -/
def Node.isKnownPressure (nd : Node) : Bool :=
  match nd.type with
  | .Ambient => true
  | _ => false

/-- Node::updateDensity(double absolutePressure): ideal-gas density from the
given absolute pressure, using the dry-air gas constant; a no-op when the
temperature is not positive. -/
def Node.updateDensityAt (nd : Node) (absolutePressure : ℚ) : Node :=
  if 0 < nd.temperature then
    { nd with density := absolutePressure / (R_AIR * nd.temperature) }
  else nd

/-- Node::updateDensity(): uses the node's own gauge pressure plus P_ATM. -/
def Node.updateDensity (nd : Node) : Node :=
  nd.updateDensityAt (P_ATM + nd.pressure)

/-! ### Species and sources (src/engine/src/core/Species.h) -/

structure Species where
  id : ℤ := 0
  molarMass : ℚ := 29 / 1000
  decayRate : ℚ := 0
  outdoorConc : ℚ := 0
  isTrace : Bool := true
deriving Repr, Inhabited, DecidableEq

inductive SourceType where
  | Constant
  | ExponentialDecay
  | PressureDriven
  | CutoffConcentration
deriving DecidableEq, Repr, Inhabited

structure Source where
  zoneId : ℤ := 0
  speciesId : ℤ := 0
  type : SourceType := .Constant
  generationRate : ℚ := 0
  removalRate : ℚ := 0
  scheduleId : ℤ := -1
  decayTimeConstant : ℚ := 3600
  startTime : ℚ := 0
  multiplier : ℚ := 1
  pressureCoeff : ℚ := 0
  cutoffConc : ℚ := 0
deriving Repr, Inhabited, DecidableEq

/-- Modelled from the spec: core/Schedule.h is not present under src/ (only
its callers are).  A schedule is a piecewise-linear table of (time, value)
pairs, evaluated by linear interpolation and extrapolated as constant outside
the defined range. -/
structure Schedule where
  points : List (ℚ × ℚ) := []
deriving Repr, Inhabited

/-- Modelled from the spec: Schedule::getValue by linear interpolation with
constant extrapolation; an empty table yields 1 (always on). -/
def Schedule.getValue (s : Schedule) (t : ℚ) : ℚ :=
  match s.points with
  | [] => 1
  | (t0, v0) :: rest =>
    if t ≤ t0 then v0
    else
      let rec go (tp vp : ℚ) : List (ℚ × ℚ) → ℚ
        | [] => vp
        | (ti, vi) :: more =>
          if t ≤ ti then
            if ti = tp then vi
            else vp + (vi - vp) * (t - tp) / (ti - tp)
          else go ti vi more
      go t0 v0 rest

/-! ### Fan element, rational part (src/engine/src/elements/Fan.cpp) -/

inductive ElementError where
  | InvalidParameter
deriving DecidableEq, Repr

structure Fan where
  maxFlow : ℚ
  shutoffPressure : ℚ
deriving Repr, DecidableEq

/-- Fan::Fan(maxFlow, shutoffPressure): the constructor stores |shutoffPressure|
and throws std::invalid_argument (InvalidParameter) when maxFlow is not
positive or the stored |shutoffPressure| is not positive. -/
def Fan.mk' (maxFlow shutoffPressure : ℚ) : Except ElementError Fan :=
  let stored := |shutoffPressure|
  if maxFlow ≤ 0 then .error .InvalidParameter
  else if stored ≤ 0 then .error .InvalidParameter
  else .ok { maxFlow := maxFlow, shutoffPressure := stored }

/-- Fan::calculate: linear fan curve clamped to forward flow, with a tiny
derivative when saturated (src/engine/src/elements/Fan.cpp lines 18-43). -/
def Fan.calculate (f : Fan) (deltaP density : ℚ) : ℚ × ℚ :=
  let Q0 := f.maxFlow * (1 - deltaP / f.shutoffPressure)
  let Q := if Q0 < 0 then 0 else Q0
  let massFlow := density * Q
  let derivative :=
    if Q ≤ 0 then -density * (1 / 10000000000) else density * (-f.maxFlow / f.shutoffPressure)
  (massFlow, derivative)

/-! ### Incremental PI controller (src/engine/src/control/Controller.h) -/

structure Controller where
  setpoint : ℚ := 0
  Kp : ℚ := 1
  Ki : ℚ := 0
  deadband : ℚ := 0
  outputMin : ℚ := 0
  outputMax : ℚ := 1
  output : ℚ := 0
  prevError : ℚ := 0
deriving Repr, Inhabited, DecidableEq

/-- Controller::update(sensorValue, dt): error with deadband, incremental PI
increment, hard clamp of the new output, and storage of the error.  The dt
argument of the source is ignored by its body and therefore omitted. -/
def Controller.update (c : Controller) (sensorValue : ℚ) : Controller :=
  let error0 := c.setpoint - sensorValue
  let error := if |error0| < c.deadband then 0 else error0
  let increment := c.Kp * (error - c.prevError) + c.Ki * (error + c.prevError)
  let rawOutput := c.output + increment
  { c with output := min (max rawOutput c.outputMin) c.outputMax, prevError := error }

/-! ### Network topology (src/engine/src/core/Link.h, Network.h, Network.cpp)

A flow element answers calculate(deltaP, density) with a mass flow and a
derivative; the C++ dispatches virtually through FlowElement*.  The solver is
element-generic, so each link carries its element as a function value. -/

structure FlowResult where
  massFlow : ℚ
  derivative : ℚ
deriving Repr, Inhabited, DecidableEq

structure Link where
  id : ℤ := 0
  nodeFrom : ℕ := 0
  nodeTo : ℕ := 0
  elevation : ℚ := 0
  element : ℚ → ℚ → FlowResult := fun _ _ => ⟨0, 0⟩
  massFlow : ℚ := 0
  derivative : ℚ := 0

instance : Inhabited Link := ⟨{}⟩

structure Network where
  nodes : List Node := []
  links : List Link := []

/-- Network::getUnknownCount: number of non-Ambient nodes. -/
def Network.getUnknownCount (net : Network) : ℕ :=
  (net.nodes.filter (fun nd => !nd.isKnownPressure)).length

/-- Network::updateAllDensities. -/
def Network.updateAllDensities (net : Network) : Network :=
  { net with nodes := net.nodes.map Node.updateDensity }

/-- Network::getNodeIndexById: index of the node with the given identifier;
the source throws when the id is absent, modelled as none. -/
def Network.getNodeIndexById (net : Network) (i : ℤ) : Option ℕ :=
  net.nodes.findIdx? (fun nd => nd.id = i)

/-! ### Density feedback (src/engine/src/core/TransientSimulation.cpp 172-221) -/

/-- TransientSimulation::hasNonTraceSpecies. -/
def hasNonTraceSpecies (species : List Species) : Bool :=
  species.any (fun sp => !sp.isTrace)

/-- Inner loop of TransientSimulation::updateDensitiesFromConcentrations for
one node: the mass-fraction correction sum over non-trace species with
positive molar mass; the concentration row is consumed positionally, and
species indices beyond it are skipped (the source's bounds check). -/
def mixtureCorrectionSum : List Species → List ℚ → ℚ → ℚ
  | [], _, _ => 0
  | sp :: rest, row, rhoBase =>
    (if sp.isTrace then 0
     else
       match row with
       | [] => 0
       | c :: _ =>
         if 0 < sp.molarMass then (c / rhoBase) * ((29 / 1000) / sp.molarMass - 1)
         else 0)
    + mixtureCorrectionSum rest row.tail rhoBase

/-- Body of TransientSimulation::updateDensitiesFromConcentrations for one
non-Ambient node (lines 193-219).  The source computes newDensity from the
mixture gas constant R_mix and then calls updateDensity(P_abs), which uses the
dry-air constant; newDensity is never written anywhere, exactly as in the
source. -/
def densityFeedbackNode (species : List Species) (row : List ℚ) (nd : Node) : Node :=
  let rhoBase := if nd.density ≤ 0 then 6 / 5 else nd.density
  let sumCorrection := mixtureCorrectionSum species row rhoBase
  let R_mix := R_AIR * (1 + sumCorrection)
  let P_abs := P_ATM + nd.pressure
  let _newDensity := P_abs / (R_mix * nd.temperature)
  nd.updateDensityAt P_abs

/-- The node loop of TransientSimulation::updateDensitiesFromConcentrations:
the concentration rows are consumed positionally alongside the nodes; a node
beyond the concentration matrix (the source's bounds check) and an Ambient
node are left untouched. -/
def feedbackNodes (species : List Species) :
    List (List ℚ) → List Node → List Node
  | _, [] => []
  | conc, nd :: rest =>
    (if nd.isKnownPressure then nd
     else
       match conc with
       | [] => nd
       | row :: _ => densityFeedbackNode species row nd) ::
    feedbackNodes species conc.tail rest

/-- TransientSimulation::updateDensitiesFromConcentrations: every non-Ambient
node with a concentration row goes through densityFeedbackNode. -/
def updateDensitiesFromConcentrations (species : List Species)
    (conc : List (List ℚ)) (net : Network) : Network :=
  { net with nodes := feedbackNodes species conc net.nodes }

/-- The density the specification's feedback formula prescribes for a zone:
P_abs / (R_mix · T) with R_mix = R_air · (1 + Σ_k w_k · (M_air / M_k − 1)) and
w_k = C_k / ρ.  Stated from the spec's words for comparison with the
source-embedded densityFeedbackNode. -/
def specMixtureDensity (species : List Species) (row : List ℚ) (nd : Node) : ℚ :=
  let rhoBase := if nd.density ≤ 0 then 6 / 5 else nd.density
  let R_mix := R_AIR * (1 + mixtureCorrectionSum species row rhoBase)
  (P_ATM + nd.pressure) / (R_mix * nd.temperature)

/-! ### Airflow solver (src/engine/src/core/Solver.h, Solver.cpp)

The Eigen SparseLU factor-and-solve and the Eigen vector norm are library
calls; they enter as the fields of a LinearBackend.  A failed factorization or
solve is a none from linSolve. -/

abbrev Mat := ℕ → ℕ → ℚ
abbrev Vec := ℕ → ℚ

def Mat.zero : Mat := fun _ _ => 0
def Vec.zero : Vec := fun _ => 0

/-- Matrix accumulation, mirroring one Eigen triplet / coefficient update. -/
def Mat.add (A : Mat) (i j : ℕ) (v : ℚ) : Mat :=
  fun a b => if a = i ∧ b = j then A a b + v else A a b

/-- Vector accumulation. -/
def Vec.add (R : Vec) (i : ℕ) (v : ℚ) : Vec :=
  fun a => if a = i then R a + v else R a

structure LinearBackend where
  linSolve : Mat → Vec → ℕ → Option Vec
  norm : Vec → ℕ → ℚ

inductive SolverMethod where
  | SubRelaxation
  | TrustRegion
deriving DecidableEq, Repr

structure SolverConfig where
  method : SolverMethod := .TrustRegion
  maxIterations : ℕ := MAX_ITERATIONS
  convergenceTol : ℚ := CONVERGENCE_TOL
  relaxFactor : ℚ := RELAX_FACTOR_SUR

structure SolverResult where
  converged : Bool := false
  iterations : ℕ := 0
  maxResidual : ℚ := 0
  pressures : List ℚ := []
  massFlows : List ℚ := []
deriving Repr, DecidableEq

/-- The unknownMap of Solver::solve (lines 148-154): -1 for Ambient nodes,
consecutive equation indices for the rest, in node order. -/
def buildUnknownMapFrom (eqIdx : ℤ) : List Node → List ℤ
  | [] => []
  | nd :: rest =>
    if nd.isKnownPressure then (-1) :: buildUnknownMapFrom eqIdx rest
    else eqIdx :: buildUnknownMapFrom (eqIdx + 1) rest

def buildUnknownMap (nodes : List Node) : List ℤ := buildUnknownMapFrom 0 nodes

/-- Solver::computeDeltaP: elevation-corrected pressure difference across a
link, positive driving flow from the from-node to the to-node. -/
def computeDeltaP (net : Network) (lk : Link) : ℚ :=
  let nodeI := net.nodes.getD lk.nodeFrom default
  let nodeJ := net.nodes.getD lk.nodeTo default
  let pEffI := nodeI.pressure - nodeI.density * GRAVITY * (lk.elevation - nodeI.elevation)
  let pEffJ := nodeJ.pressure - nodeJ.density * GRAVITY * (lk.elevation - nodeJ.elevation)
  pEffI - pEffJ

/-- Solver::computeFlows: every link's element is evaluated at the current
elevation-corrected pressure drop with the average endpoint density, and the
result is stored on the link. -/
def computeFlows (net : Network) : Network :=
  { net with
    links := net.links.map (fun lk =>
      let deltaP := computeDeltaP net lk
      let nodeI := net.nodes.getD lk.nodeFrom default
      let nodeJ := net.nodes.getD lk.nodeTo default
      let avgDensity := (nodeI.density + nodeJ.density) / 2
      let r := lk.element deltaP avgDensity
      { lk with massFlow := r.massFlow, derivative := r.derivative }) }

/-- One link's contribution to the residual of Solver::assembleSystem
(lines 67-75): R loses the mass flow at the from-equation and gains it at the
to-equation, skipping Ambient endpoints. -/
def residualStep (unknownMap : List ℤ) (R : Vec) (lk : Link) : Vec :=
  let eqI := unknownMap.getD lk.nodeFrom (-1)
  let eqJ := unknownMap.getD lk.nodeTo (-1)
  let R1 := if 0 ≤ eqI then R.add eqI.toNat (-lk.massFlow) else R
  if 0 ≤ eqJ then R1.add eqJ.toNat lk.massFlow else R1

/-- The residual accumulation of Solver::assembleSystem (lines 58-94). -/
def assembleResidual (links : List Link) (unknownMap : List ℤ) : Vec :=
  links.foldl (residualStep unknownMap) Vec.zero

/-- The Jacobian accumulation of Solver::assembleSystem. -/
def assembleJacobian (links : List Link) (unknownMap : List ℤ) : Mat :=
  links.foldl (fun J lk =>
    let eqI := unknownMap.getD lk.nodeFrom (-1)
    let eqJ := unknownMap.getD lk.nodeTo (-1)
    let d := lk.derivative
    let J1 := if 0 ≤ eqI then
      (if 0 ≤ eqJ then (J.add eqI.toNat eqI.toNat (-d)).add eqI.toNat eqJ.toNat d
       else J.add eqI.toNat eqI.toNat (-d)) else J
    if 0 ≤ eqJ then
      (if 0 ≤ eqI then (J1.add eqJ.toNat eqJ.toNat (-d)).add eqJ.toNat eqI.toNat d
       else J1.add eqJ.toNat eqJ.toNat (-d)) else J1) Mat.zero

/-- Infinity norm of the first n residual entries, as Eigen lpNorm. -/
def maxResidualOf (R : Vec) (n : ℕ) : ℚ :=
  ((List.range n).map (fun i => |R i|)).foldl max 0

/-- The pressure-update loop shared by Solver::applyUpdateSUR and
Solver::applyUpdateTR: each node whose unknown-map entry is non-negative gains
factor times its solution component; the nodes and their unknown-map entries
are consumed positionally together. -/
def applyPressureUpdate (factor : ℚ) (dP : Vec) :
    List Node → List ℤ → List Node
  | [], _ => []
  | nds, [] => nds
  | nd :: nds, eq :: eqs =>
    (if 0 ≤ eq then { nd with pressure := nd.pressure + factor * dP eq.toNat }
     else nd) :: applyPressureUpdate factor dP nds eqs

/-- Solver::applyUpdateSUR: under-relaxed pressure update on unknown nodes. -/
def applyUpdateSUR (relaxFactor : ℚ) (net : Network) (dP : Vec)
    (unknownMap : List ℤ) : Network :=
  { net with nodes := applyPressureUpdate relaxFactor dP net.nodes unknownMap }

/-- Solver::applyUpdateTR: trust-region-clipped pressure update; the radius
halves when the step was clipped and doubles otherwise, within the fixed
bounds.  The prevResidualNorm argument is unused by the source body. -/
def applyUpdateTR (backend : LinearBackend) (net : Network) (dP : Vec)
    (unknownMap : List ℤ) (trustRadius : ℚ) (_prevResidualNorm : ℚ) (n : ℕ) :
    Network × ℚ :=
  let stepNorm := backend.norm dP n
  let scale := if trustRadius < stepNorm then trustRadius / stepNorm else 1
  let net' := { net with nodes := applyPressureUpdate scale dP net.nodes unknownMap }
  let radius :=
    if scale < 1 then max (trustRadius * (1 / 2)) TR_MIN_RADIUS
    else min (trustRadius * 2) TR_MAX_RADIUS
  (net', radius)

/-- One Newton loop of Solver::solve (lines 169-209), structurally recursive
on the remaining iteration budget; carries the network, the trust radius and
the last recorded (iterations, maxResidual) pair, and reports convergence. -/
def newtonLoop (backend : LinearBackend) (cfg : SolverConfig)
    (unknownMap : List ℤ) (n : ℕ) :
    ℕ → Network → ℚ → ℕ → ℚ → Network × ℕ × ℚ × Bool
  | 0, net, _, itersDone, lastMaxRes => (net, itersDone, lastMaxRes, false)
  | fuel + 1, net, trustRadius, itersDone, _ =>
    let net1 := net.updateAllDensities
    let net2 := computeFlows net1
    let R := assembleResidual net2.links unknownMap
    let J := assembleJacobian net2.links unknownMap
    let maxRes := maxResidualOf R n
    let iters := itersDone + 1
    if maxRes < cfg.convergenceTol then (net2, iters, maxRes, true)
    else
      match backend.linSolve J (fun i => -R i) n with
      | none => (net2, iters, maxRes, false)
      | some dP =>
        match cfg.method with
        | .SubRelaxation =>
          newtonLoop backend cfg unknownMap n fuel
            (applyUpdateSUR cfg.relaxFactor net2 dP unknownMap) trustRadius iters maxRes
        | .TrustRegion =>
          let pr := backend.norm R n
          let (net3, tr') := applyUpdateTR backend net2 dP unknownMap trustRadius pr n
          newtonLoop backend cfg unknownMap n fuel net3 tr' iters maxRes

/-- Solver::solve (lines 144-223): early return when every node is Ambient,
otherwise the Newton loop followed by collection of pressures and flows. -/
def solve (backend : LinearBackend) (cfg : SolverConfig) (net : Network) :
    SolverResult × Network :=
  let unknownMap := buildUnknownMap net.nodes
  let n := net.getUnknownCount
  if n = 0 then
    ({ converged := true, iterations := 0, maxResidual := 0,
       pressures := [], massFlows := [] }, net)
  else
    let net1 := net.updateAllDensities
    let (netF, iters, maxRes, conv) :=
      newtonLoop backend cfg unknownMap n cfg.maxIterations net1 TR_INITIAL_RADIUS 0 0
    ({ converged := conv, iterations := iters, maxResidual := maxRes,
       pressures := netF.nodes.map Node.pressure,
       massFlows := netF.links.map Link.massFlow }, netF)

/-- Net mass imbalance at node i computed from the links' stored flows: sum of
flows into i minus sum of flows out of i. -/
def netImbalance (links : List Link) (i : ℕ) : ℚ :=
  (links.map (fun lk =>
    (if lk.nodeTo = i then lk.massFlow else 0) -
    (if lk.nodeFrom = i then lk.massFlow else 0))).sum

/-- Largest absolute net imbalance over the non-Ambient nodes, accumulated in
node order from the given starting index. -/
def maxImbalanceFrom (links : List Link) : ℕ → List Node → ℚ → ℚ
  | _, [], acc => acc
  | i, nd :: rest, acc =>
    maxImbalanceFrom links (i + 1) rest
      (if nd.isKnownPressure then acc else max acc |netImbalance links i|)

/-- Largest absolute net imbalance over the non-Ambient nodes. -/
def maxImbalance (net : Network) : ℚ :=
  maxImbalanceFrom net.links 0 net.nodes 0

/-! ### Contaminant solver (src/engine/src/core/ContaminantSolver.cpp)

std::exp enters as the parameter expQ, and the Eigen column-pivoted QR solve
as the parameter qr.  The concentration matrix is a row per zone and a column
per species.  getNodeIndexById throws in the source when a source's zone id is
unknown; the assembly therefore returns an Option. -/

/-- ContaminantSolver::getScheduleValue (lines 35-40). -/
def getScheduleValue (schedules : List (ℤ × Schedule)) (scheduleId : ℤ) (t : ℚ) : ℚ :=
  if scheduleId < 0 then 1
  else
    match schedules.lookup scheduleId with
    | none => 1
    | some s => s.getValue t

/-- Diagonal terms of ContaminantSolver::solveSpecies (lines 89-110): time
derivative with its RHS counterpart and decay, with the volume replaced by 1
only when it is not positive.  The nodes, their unknown-map entries and their
concentration rows are consumed positionally together. -/
def speciesDiagonal (species : List Species) (specIdx : ℕ) (dt : ℚ) :
    List Node → List ℤ → List (List ℚ) → Mat × Vec → Mat × Vec
  | [], _, _, Ab => Ab
  | _, [], _, Ab => Ab
  | nd :: nds, eq :: eqs, Crows, Ab =>
    let Ab' :=
      if eq < 0 then Ab
      else
        let e := eq.toNat
        let Vi0 := nd.volume
        let Vi := if Vi0 ≤ 0 then 1 else Vi0
        let A1 := Ab.1.add e e (Vi / dt)
        let b1 := Ab.2.add e (Vi / dt * ((Crows.headD []).getD specIdx 0))
        let lam := (species.getD specIdx default).decayRate
        (if 0 < lam then A1.add e e (lam * Vi) else A1, b1)
    speciesDiagonal species specIdx dt nds eqs Crows.tail Ab'

/-- Flow terms of ContaminantSolver::solveSpecies (lines 113-162): upwind
donor-cell advection with the volumetric rate taken at the upwind density;
an Ambient donor contributes its concentration on the RHS. -/
def speciesFlowTerms (Cmat : List (List ℚ)) (specIdx : ℕ) (nodes : List Node)
    (links : List Link) (unknownMap : List ℤ) (Ab : Mat × Vec) : Mat × Vec :=
  links.foldl (fun Ab lk =>
    if 0 < lk.massFlow then
      let flowRate := lk.massFlow / (nodes.getD lk.nodeFrom default).density
      let eqI := unknownMap.getD lk.nodeFrom (-1)
      let eqJ := unknownMap.getD lk.nodeTo (-1)
      let A1 := if 0 ≤ eqI then Ab.1.add eqI.toNat eqI.toNat flowRate else Ab.1
      if 0 ≤ eqJ then
        if 0 ≤ eqI then (A1.add eqJ.toNat eqI.toNat (-flowRate), Ab.2)
        else (A1, Ab.2.add eqJ.toNat (flowRate * ((Cmat.getD lk.nodeFrom []).getD specIdx 0)))
      else (A1, Ab.2)
    else if lk.massFlow < 0 then
      let flowRate := -lk.massFlow / (nodes.getD lk.nodeTo default).density
      let eqI := unknownMap.getD lk.nodeFrom (-1)
      let eqJ := unknownMap.getD lk.nodeTo (-1)
      let A1 := if 0 ≤ eqJ then Ab.1.add eqJ.toNat eqJ.toNat flowRate else Ab.1
      if 0 ≤ eqI then
        if 0 ≤ eqJ then (A1.add eqI.toNat eqJ.toNat (-flowRate), Ab.2)
        else (A1, Ab.2.add eqI.toNat (flowRate * ((Cmat.getD lk.nodeTo []).getD specIdx 0)))
      else (A1, Ab.2)
    else Ab) Ab

/-- Source terms of ContaminantSolver::solveSpecies (lines 164-202); the
removal sink R·V uses the stored zone volume directly. -/
def speciesSourceTerms (expQ : ℚ → ℚ) (species : List Species)
    (sources : List Source) (schedules : List (ℤ × Schedule))
    (Cmat : List (List ℚ)) (specIdx : ℕ) (net : Network) (unknownMap : List ℤ)
    (t dt : ℚ) (Ab : Mat × Vec) : Option (Mat × Vec) :=
  sources.foldlM (fun Ab src =>
    if src.speciesId ≠ (species.getD specIdx default).id then some Ab
    else
      match net.getNodeIndexById src.zoneId with
      | none => none
      | some zoneIdx =>
        let eq := unknownMap.getD zoneIdx (-1)
        if eq < 0 then some Ab
        else
          let e := eq.toNat
          let scheduleMult := getScheduleValue schedules src.scheduleId (t + dt)
          let b' :=
            match src.type with
            | .ExponentialDecay =>
              let elapsed := (t + dt) - src.startTime
              if (0 : ℚ) ≤ elapsed ∧ (0 : ℚ) < src.decayTimeConstant then
                Ab.2.add e (src.multiplier * src.generationRate *
                  expQ (-(elapsed / src.decayTimeConstant)) * scheduleMult)
              else Ab.2
            | .PressureDriven =>
              let P := |(net.nodes.getD zoneIdx default).pressure|
              Ab.2.add e (src.pressureCoeff * P * scheduleMult)
            | .CutoffConcentration =>
              if (Cmat.getD zoneIdx []).getD specIdx 0 < src.cutoffConc then
                Ab.2.add e (src.generationRate * scheduleMult)
              else Ab.2
            | .Constant => Ab.2.add e (src.generationRate * scheduleMult)
          let A' :=
            if (0 : ℚ) < src.removalRate then
              Ab.1.add e e (src.removalRate * (net.nodes.getD zoneIdx default).volume)
            else Ab.1
          some (A', b')) Ab

/-- Full assembly of the single-species implicit-Euler system of
ContaminantSolver::solveSpecies. -/
def assembleSpecies (expQ : ℚ → ℚ) (species : List Species)
    (sources : List Source) (schedules : List (ℤ × Schedule))
    (Cmat : List (List ℚ)) (net : Network) (specIdx : ℕ) (t dt : ℚ) :
    Option (Mat × Vec) :=
  let unknownMap := buildUnknownMap net.nodes
  speciesSourceTerms expQ species sources schedules Cmat specIdx net unknownMap t dt
    (speciesFlowTerms Cmat specIdx net.nodes net.links unknownMap
      (speciesDiagonal species specIdx dt net.nodes unknownMap Cmat
        (Mat.zero, Vec.zero)))

/-- ContaminantSolver::solveSpecies (lines 69-214): assembly, Eigen QR solve,
and write-back clamped to non-negative concentrations. -/
def solveSpecies (expQ : ℚ → ℚ) (qr : Mat → Vec → ℕ → Vec)
    (species : List Species) (sources : List Source)
    (schedules : List (ℤ × Schedule)) (Cmat : List (List ℚ)) (net : Network)
    (specIdx : ℕ) (t dt : ℚ) : Option (List (List ℚ)) :=
  let unknownMap := buildUnknownMap net.nodes
  let numUnknown := net.getUnknownCount
  if numUnknown = 0 then some Cmat
  else
    match assembleSpecies expQ species sources schedules Cmat net specIdx t dt with
    | none => none
    | some (A, b) =>
      let Cnew := qr A b numUnknown
      some (Cmat.enum.map (fun p =>
        let eq := unknownMap.getD p.1 (-1)
        if 0 ≤ eq then p.2.set specIdx (max 0 (Cnew eq.toNat)) else p.2))

/-- Block-variable ordering of ContaminantSolver::solveCoupled: row of zone
equation eq and species k. -/
def coupledIdx (numSpecies eq k : ℕ) : ℕ := eq * numSpecies + k

/-- Diagonal, decay and chemical-kinetics terms of
ContaminantSolver::solveCoupled (lines 239-273); here the volume is floored at
1 with std::max. -/
def coupledDiagonal (species : List Species) (K : ℕ → ℕ → ℚ) (dt : ℚ) :
    List Node → List ℤ → List (List ℚ) → Mat × Vec → Mat × Vec
  | [], _, _, Ab => Ab
  | _, [], _, Ab => Ab
  | nd :: nds, eq :: eqs, Crows, Ab =>
    let numSpecies := species.length
    let Ab' :=
      if eq < 0 then Ab
      else
        let e := eq.toNat
        let Vi := max nd.volume 1
        (List.range numSpecies).foldl (fun Ab k =>
          let row := coupledIdx numSpecies e k
          let A1 := Ab.1.add row row (Vi / dt)
          let b1 := Ab.2.add row (Vi / dt * ((Crows.headD []).getD k 0))
          let lam := (species.getD k default).decayRate
          let A2 := if 0 < lam then A1.add row row (lam * Vi) else A1
          let A3 := (List.range numSpecies).foldl (fun A j =>
            if |K k j| < 1 / 10 ^ 30 then A
            else if k = j then
              (if K k k < 0 then A.add row row (|K k k| * Vi) else A)
            else A.add row (coupledIdx numSpecies e j) (-(K k j * Vi))) A2
          (A3, b1)) Ab
    coupledDiagonal species K dt nds eqs Crows.tail Ab'

/-- Flow terms of ContaminantSolver::solveCoupled (lines 276-302). -/
def coupledFlowTerms (numSpecies : ℕ) (Cmat : List (List ℚ)) (nodes : List Node)
    (links : List Link) (unknownMap : List ℤ) (Ab : Mat × Vec) : Mat × Vec :=
  links.foldl (fun Ab lk =>
    (List.range numSpecies).foldl (fun Ab k =>
      if 0 < lk.massFlow then
        let flowRate := lk.massFlow / (nodes.getD lk.nodeFrom default).density
        let eqI := unknownMap.getD lk.nodeFrom (-1)
        let eqJ := unknownMap.getD lk.nodeTo (-1)
        let A1 := if 0 ≤ eqI then
          Ab.1.add (coupledIdx numSpecies eqI.toNat k) (coupledIdx numSpecies eqI.toNat k) flowRate
          else Ab.1
        if 0 ≤ eqJ then
          if 0 ≤ eqI then
            (A1.add (coupledIdx numSpecies eqJ.toNat k) (coupledIdx numSpecies eqI.toNat k)
              (-flowRate), Ab.2)
          else
            (A1, Ab.2.add (coupledIdx numSpecies eqJ.toNat k)
              (flowRate * ((Cmat.getD lk.nodeFrom []).getD k 0)))
        else (A1, Ab.2)
      else if lk.massFlow < 0 then
        let flowRate := -lk.massFlow / (nodes.getD lk.nodeTo default).density
        let eqI := unknownMap.getD lk.nodeFrom (-1)
        let eqJ := unknownMap.getD lk.nodeTo (-1)
        let A1 := if 0 ≤ eqJ then
          Ab.1.add (coupledIdx numSpecies eqJ.toNat k) (coupledIdx numSpecies eqJ.toNat k) flowRate
          else Ab.1
        if 0 ≤ eqI then
          if 0 ≤ eqJ then
            (A1.add (coupledIdx numSpecies eqI.toNat k) (coupledIdx numSpecies eqJ.toNat k)
              (-flowRate), Ab.2)
          else
            (A1, Ab.2.add (coupledIdx numSpecies eqI.toNat k)
              (flowRate * ((Cmat.getD lk.nodeTo []).getD k 0)))
        else (A1, Ab.2)
      else Ab) Ab) Ab

/-- Source terms of ContaminantSolver::solveCoupled (lines 305-334); only the
ExponentialDecay kind is special-cased, every other kind contributes its base
generation rate, and the removal sink again uses the raw stored volume. -/
def coupledSourceTerms (expQ : ℚ → ℚ) (species : List Species)
    (sources : List Source) (schedules : List (ℤ × Schedule)) (net : Network)
    (unknownMap : List ℤ) (t dt : ℚ) (Ab : Mat × Vec) : Option (Mat × Vec) :=
  let numSpecies := species.length
  sources.foldlM (fun Ab src =>
    match species.findIdx? (fun sp => sp.id = src.speciesId) with
    | none => some Ab
    | some specIdx =>
      match net.getNodeIndexById src.zoneId with
      | none => none
      | some zoneIdx =>
        let eq := unknownMap.getD zoneIdx (-1)
        if eq < 0 then some Ab
        else
          let scheduleMult := getScheduleValue schedules src.scheduleId (t + dt)
          let row := coupledIdx numSpecies eq.toNat specIdx
          let b' :=
            match src.type with
            | .ExponentialDecay =>
              let elapsed := (t + dt) - src.startTime
              if (0 : ℚ) ≤ elapsed ∧ (0 : ℚ) < src.decayTimeConstant then
                Ab.2.add row (src.multiplier * src.generationRate *
                  expQ (-(elapsed / src.decayTimeConstant)) * scheduleMult)
              else Ab.2
            | _ => Ab.2.add row (src.generationRate * scheduleMult)
          let A' :=
            if (0 : ℚ) < src.removalRate then
              Ab.1.add row row (src.removalRate * (net.nodes.getD zoneIdx default).volume)
            else Ab.1
          some (A', b')) Ab

/-- Full assembly of the coupled block system of
ContaminantSolver::solveCoupled; K is the reaction-rate matrix built by
ReactionNetwork::buildMatrix. -/
def assembleCoupled (expQ : ℚ → ℚ) (species : List Species) (K : ℕ → ℕ → ℚ)
    (sources : List Source) (schedules : List (ℤ × Schedule))
    (Cmat : List (List ℚ)) (net : Network) (t dt : ℚ) : Option (Mat × Vec) :=
  let unknownMap := buildUnknownMap net.nodes
  coupledSourceTerms expQ species sources schedules net unknownMap t dt
    (coupledFlowTerms species.length Cmat net.nodes net.links unknownMap
      (coupledDiagonal species K dt net.nodes unknownMap Cmat
        (Mat.zero, Vec.zero)))

/-! ### Transient driver (src/engine/src/core/TransientSimulation.cpp 8-98)

TransientSimulation::run sequences its collaborators through their public
interfaces only, so the driver is embedded generically over them: the airflow
solve, the control read-compute-write, the contaminant step, and the occupant
exposure update are the fields of a DriverEnv acting on the Network and on an
abstract driver-owned state.  A null progress callback never cancels and is
modelled as the constantly-true callback. -/

structure TransientConfig where
  startTime : ℚ := 0
  endTime : ℚ := 0
  timeStep : ℚ := 0
  outputInterval : ℚ := 0

structure ContaminantResult where
  t : ℚ := 0
  conc : List (List ℚ) := []
deriving Repr, DecidableEq

structure Snapshot where
  t : ℚ
  air : SolverResult
  cont : ContaminantResult
deriving Repr, DecidableEq

structure TransientResult where
  completed : Bool := false
  history : List Snapshot := []
deriving Repr, DecidableEq

structure DriverEnv (α : Type) where
  solve : Network → SolverResult × Network
  controlStep : Network → α → ℚ → Network × α
  contStep : α → Network → ℚ → ℚ → ContaminantResult × α
  getConcentrations : α → List (List ℚ)
  occupantStep : α → ℚ → ℚ → α
  initCont : Network → α → α

/-- Tolerance 1e-10 used by the run loop's time comparisons. -/
def EPS_RUN : ℚ := 1 / 10 ^ 10

/-- The while loop of TransientSimulation::run (lines 43-94), structurally
recursive on a step budget that run chooses large enough for any positive
time step.  Each pass: control update when controllers exist, airflow solve,
contaminant step (regardless of airflow convergence), density feedback with a
second solve kept only when it converged, occupant exposure, snapshot at
output intervals, and the cooperative cancel check. -/
def runLoop {α : Type} (env : DriverEnv α) (species : List Species)
    (hasControllers hasOccupants : Bool) (progress : ℚ → ℚ → Bool)
    (cfg : TransientConfig) :
    ℕ → ℚ → ℚ → Network → α → List Snapshot → TransientResult
  | 0, _, _, _, _, history => { completed := false, history := history }
  | fuel + 1, t, nextOutput, net, a, history =>
    if t < cfg.endTime - EPS_RUN then
      let currentDt := min cfg.timeStep (cfg.endTime - t)
      let hasCont : Bool := ¬species.isEmpty
      let p1 := if hasControllers then env.controlStep net a currentDt else (net, a)
      let s1 := env.solve p1.1
      let airResult := s1.1
      let step3 :
          ContaminantResult × α × Network × SolverResult :=
        if hasCont then
          let c1 := env.contStep p1.2 s1.2 t currentDt
          if hasNonTraceSpecies species then
            let netD := updateDensitiesFromConcentrations species
              (env.getConcentrations c1.2) s1.2
            let s2 := env.solve netD
            (c1.1, c1.2, s2.2, if s2.1.converged then s2.1 else airResult)
          else (c1.1, c1.2, s1.2, airResult)
        else ({ t := t + currentDt, conc := [] }, p1.2, s1.2, airResult)
      let t' := t + currentDt
      let a' := if hasOccupants ∧ hasCont then
        env.occupantStep step3.2.1 t' currentDt else step3.2.1
      let record := nextOutput - EPS_RUN ≤ t' ∨ cfg.endTime - EPS_RUN ≤ t'
      let history' := if record then
        history ++ [{ t := t', air := step3.2.2.2, cont := step3.1 }] else history
      let nextOutput' := if record then nextOutput + cfg.outputInterval else nextOutput
      if progress t' cfg.endTime then
        runLoop env species hasControllers hasOccupants progress cfg
          fuel t' nextOutput' step3.2.2.1 a' history'
      else { completed := false, history := history' }
    else { completed := true, history := history }

/-- TransientSimulation::run: contaminant initialization when species exist,
initial airflow solve and initial record, then the stepping loop.  The loop
budget covers every run with a positive time step; the C++ loop does not
terminate when the time step is not positive. -/
def run {α : Type} (env : DriverEnv α) (species : List Species)
    (hasControllers hasOccupants : Bool) (progress : ℚ → ℚ → Bool)
    (cfg : TransientConfig) (net : Network) (a0 : α) : TransientResult :=
  let hasCont : Bool := ¬species.isEmpty
  let a := if hasCont then env.initCont net a0 else a0
  let s0 := env.solve net
  let cont0 : ContaminantResult :=
    if hasCont then { t := cfg.startTime, conc := env.getConcentrations a }
    else { t := cfg.startTime, conc := [] }
  let history0 := [{ t := cfg.startTime, air := s0.1, cont := cont0 : Snapshot }]
  let fuel := Nat.ceil ((cfg.endTime - cfg.startTime) / cfg.timeStep) + 1
  runLoop env species hasControllers hasOccupants progress cfg
    fuel cfg.startTime (cfg.startTime + cfg.outputInterval) s0.2 a history0

/-! ### Flow elements over the reals (src/engine/src/elements)

The power-law elements and the square-root opening need real pow and sqrt, so
this layer is embedded over the reals.  Validity predicates restate each
constructor's parameter checks. -/

/-- DP_MIN as a real number, the linearization threshold. -/
noncomputable def DP_MIN_R : ℝ := 1 / 1000

structure PowerLawOrifice where
  C : ℝ
  n : ℝ

/-- PowerLawOrifice::PowerLawOrifice accepts exactly C > 0 and n in [0.5, 1]. -/
def PowerLawOrifice.valid (e : PowerLawOrifice) : Prop :=
  0 < e.C ∧ 1 / 2 ≤ e.n ∧ e.n ≤ 1

/-- The chord slope C · DP_MIN^(n−1) precomputed by the PowerLawOrifice
constructor. -/
noncomputable def PowerLawOrifice.linearSlope (e : PowerLawOrifice) : ℝ :=
  e.C * DP_MIN_R ^ (e.n - 1)

/-- PowerLawOrifice::calculate (lines 23-47): linearized below DP_MIN with the
density multiplying the stored slope, power law above. -/
noncomputable def PowerLawOrifice.calculate (e : PowerLawOrifice)
    (deltaP density : ℝ) : ℝ × ℝ :=
  let absDp := |deltaP|
  let sign : ℝ := if 0 ≤ deltaP then 1 else -1
  if absDp < DP_MIN_R then
    (density * e.linearSlope * deltaP, density * e.linearSlope)
  else
    (density * (e.C * absDp ^ e.n) * sign,
     density * e.n * e.C * absDp ^ (e.n - 1))

structure Damper where
  Cmax : ℝ
  n : ℝ
  fraction : ℝ

/-- Damper::Damper accepts exactly Cmax > 0 and n in [0.5, 1]; the fraction is
clamped to [0, 1] rather than validated. -/
def Damper.valid (d : Damper) : Prop := 0 < d.Cmax ∧ 1 / 2 ≤ d.n ∧ d.n ≤ 1

/-- Effective coefficient Cmax · clamp(fraction, 0, 1) maintained by
Damper::updateEffective. -/
noncomputable def Damper.Ceff (d : Damper) : ℝ := d.Cmax * min (max d.fraction 0) 1

/-- The linear slope maintained by Damper::updateEffective: the chord slope at
DP_MIN with the reference density 1.2 baked in, or the floor 1e-15. -/
noncomputable def Damper.linearSlope (d : Damper) : ℝ :=
  if 1 / 10 ^ 15 < d.Ceff then (6 / 5) * d.Ceff * DP_MIN_R ^ d.n / DP_MIN_R
  else 1 / 10 ^ 15

/-- Damper::calculate (lines 32-52): closed damper short-circuit, then the
same two regimes as the orifice, but the stored slope (with its reference
density) is not multiplied by the density argument in the linear regime. -/
noncomputable def Damper.calculate (d : Damper) (deltaP density : ℝ) : ℝ × ℝ :=
  if d.Ceff < 1 / 10 ^ 15 then (0, 1 / 10 ^ 15)
  else
    let absDp := |deltaP|
    let sign : ℝ := if 0 ≤ deltaP then 1 else -1
    if absDp < DP_MIN_R then (d.linearSlope * deltaP, d.linearSlope)
    else
      (density * d.Ceff * absDp ^ d.n * sign,
       d.n * density * d.Ceff * absDp ^ (d.n - 1))

structure Filter where
  C : ℝ
  n : ℝ
  efficiency : ℝ

/-- Filter::Filter accepts exactly C > 0 and n in [0.5, 1]; the efficiency is
clamped to [0, 1] rather than validated. -/
def Filter.valid (f : Filter) : Prop := 0 < f.C ∧ 1 / 2 ≤ f.n ∧ f.n ≤ 1

/-- The clamped removal efficiency stored by the Filter constructor. -/
noncomputable def Filter.effStored (f : Filter) : ℝ := min (max f.efficiency 0) 1

/-- The linear slope precomputed by the Filter constructor with the reference
density 1.2. -/
noncomputable def Filter.linearSlope (f : Filter) : ℝ :=
  (6 / 5) * f.C * DP_MIN_R ^ f.n / DP_MIN_R

/-- Filter::calculate (lines 18-34): identical to the damper's open regimes;
the efficiency plays no part in the airflow law. -/
noncomputable def Filter.calculate (f : Filter) (deltaP density : ℝ) : ℝ × ℝ :=
  let absDp := |deltaP|
  let sign : ℝ := if 0 ≤ deltaP then 1 else -1
  if absDp < DP_MIN_R then (f.linearSlope * deltaP, f.linearSlope)
  else
    (density * (f.C * absDp ^ f.n) * sign,
     f.n * density * f.C * absDp ^ (f.n - 1))

structure TwoWayFlow where
  Cd : ℝ
  area : ℝ
  height : ℝ
  width : ℝ

/-- TwoWayFlow::TwoWayFlow accepts exactly Cd > 0 and area > 0; height and
width are defaulted, and the simplified mode does not read them. -/
def TwoWayFlow.valid (w : TwoWayFlow) : Prop := 0 < w.Cd ∧ 0 < w.area

/-- The linear slope precomputed by the TwoWayFlow constructor from the
orifice flow at DP_MIN with the reference density 1.2. -/
noncomputable def TwoWayFlow.linearSlope (w : TwoWayFlow) : ℝ :=
  (6 / 5) * (w.Cd * w.area * Real.sqrt (2 * DP_MIN_R / (6 / 5))) / DP_MIN_R

/-- TwoWayFlow::calculate (lines 22-39), the simplified single-direction
orifice used when only an average density is available. -/
noncomputable def TwoWayFlow.calculate (w : TwoWayFlow) (deltaP density : ℝ) :
    ℝ × ℝ :=
  let absDp := |deltaP|
  let sign : ℝ := if 0 ≤ deltaP then 1 else -1
  if absDp < DP_MIN_R then (w.linearSlope * deltaP, w.linearSlope)
  else
    (density * (w.Cd * w.area * Real.sqrt (2 * absDp / density)) * sign,
     (1 / 2) * w.Cd * w.area * Real.sqrt (2 * density / absDp))

/-! ### Adaptive integrator (src/engine/src/core/AdaptiveIntegrator.cpp)

State vectors are real lists; the right-hand side is a function value as in
the source's std::function.  sqrt(DBL_EPSILON) is exactly 2^-26. -/

structure AIConfig where
  rtol : ℝ := 1 / 10 ^ 4
  atol : ℝ := 1 / 10 ^ 8
  dtMin : ℝ := 1 / 100
  dtMax : ℝ := 3600
  safetyFactor : ℝ := 9 / 10
  maxOrder : ℕ := 2

abbrev RhsFunc := ℝ → List ℝ → List ℝ

noncomputable def machineEpsSqrt : ℝ := 1 / 2 ^ 26

/-- AdaptiveIntegrator::estimateError (lines 17-30): weighted RMS of the
difference between the estimate and the reference. -/
noncomputable def estimateError (cfg : AIConfig) (numStates : ℕ)
    (y yEst yRef : List ℝ) : ℝ :=
  let sumSq := ((List.range numStates).map (fun i =>
    let scale0 := cfg.atol + cfg.rtol * |y.getD i 0|
    let scale := if scale0 < 1 / 10 ^ 30 then 1 / 10 ^ 30 else scale0
    ((yEst.getD i 0 - yRef.getD i 0) / scale) ^ 2)).sum
  Real.sqrt (sumSq / numStates)

/-- AdaptiveIntegrator::computeNewDt (lines 32-42). -/
noncomputable def computeNewDt (cfg : AIConfig) (dt error : ℝ) (order : ℕ) : ℝ :=
  if error < 1 / 10 ^ 30 then min (dt * 5) cfg.dtMax
  else
    let factor0 := cfg.safetyFactor * (1 / error) ^ ((1 : ℝ) / (order + 1))
    let factor := max (1 / 5) (min factor0 5)
    max cfg.dtMin (min (dt * factor) cfg.dtMax)

/-- The simplified-Newton loop of AdaptiveIntegrator::stepBDF1 (lines 64-94):
the residual, its infinity-norm test against 1e-10, and one in-place diagonal
finite-difference sweep; each sweep perturbs the iterate as it stood at the
start of the sweep, exactly as the source's yPerturbed bookkeeping does. -/
noncomputable def bdf1Newton (rhs : RhsFunc) (numStates : ℕ) (t dt : ℝ)
    (yn : List ℝ) : ℕ → List ℝ → List ℝ
  | 0, ynp1 => ynp1
  | fuel + 1, ynp1 =>
    let fNew := rhs (t + dt) ynp1
    let residual := (List.range numStates).map (fun i =>
      ynp1.getD i 0 - yn.getD i 0 - dt * fNew.getD i 0)
    let maxRes := (residual.map (fun r => |r|)).foldl max 0
    if maxRes < 1 / 10 ^ 10 then ynp1
    else
      let ynext := (List.range numStates).map (fun i =>
        let h := machineEpsSqrt * max (|ynp1.getD i 0|) 1
        let yPerturbed := ynp1.set i (ynp1.getD i 0 + h)
        let fPerturbed := rhs (t + dt) yPerturbed
        let dfdy := (fPerturbed.getD i 0 - fNew.getD i 0) / h
        let jac0 := 1 - dt * dfdy
        let jac := if |jac0| < 1 / 10 ^ 30 then 1 else jac0
        ynp1.getD i 0 - residual.getD i 0 / jac)
      bdf1Newton rhs numStates t dt yn fuel ynext

/-- AdaptiveIntegrator::stepBDF1 (lines 44-97): explicit-Euler predictor
followed by at most ten simplified-Newton sweeps; the result is accepted even
when Newton did not fully converge. -/
noncomputable def stepBDF1 (rhs : RhsFunc) (numStates : ℕ) (t dt : ℝ)
    (yn : List ℝ) : List ℝ :=
  let f := rhs t yn
  let predictor := (List.range numStates).map (fun i => yn.getD i 0 + dt * f.getD i 0)
  bdf1Newton rhs numStates t dt yn 10 predictor

/-- The Richardson error of one internal sub-step of
AdaptiveIntegrator::step: one full BDF-1 step against two half steps. -/
noncomputable def substepError (cfg : AIConfig) (rhs : RhsFunc) (numStates : ℕ)
    (t dt : ℝ) (y : List ℝ) : ℝ :=
  let yFull := stepBDF1 rhs numStates t dt y
  let halfDt := dt * (1 / 2)
  let yHalf := stepBDF1 rhs numStates t halfDt y
  let yDouble := stepBDF1 rhs numStates (t + halfDt) halfDt yHalf
  estimateError cfg numStates y yFull yDouble

inductive SubstepOutcome where
  | reject (newDt : ℝ)
  | accept (suggested : ℝ) (ySolution : List ℝ)

/-- One internal sub-step of AdaptiveIntegrator::step (lines 182-217): the
Richardson comparison, the rejection branch guarded by error > 1 and
dt > dtMin · 1.01 with the shrunken retry step, and otherwise the accepted
extrapolated state 2·yDouble − yFull together with the suggested next step. -/
noncomputable def substep (cfg : AIConfig) (rhs : RhsFunc) (numStates : ℕ)
    (t dt : ℝ) (y : List ℝ) : SubstepOutcome :=
  let yFull := stepBDF1 rhs numStates t dt y
  let halfDt := dt * (1 / 2)
  let yHalf := stepBDF1 rhs numStates t halfDt y
  let yDouble := stepBDF1 rhs numStates (t + halfDt) halfDt yHalf
  let error := estimateError cfg numStates y yFull yDouble
  if 1 < error ∧ cfg.dtMin * (101 / 100) < dt then
    .reject (max (computeNewDt cfg dt error 1) cfg.dtMin)
  else
    .accept (computeNewDt cfg dt error 1)
      ((List.range numStates).map (fun i => 2 * yDouble.getD i 0 - yFull.getD i 0))

/-- The while loop of AdaptiveIntegrator::step (lines 174-221) on the source's
own internal step budget: overshoot clamping, the small-step break, a sub-step
via substep, and the advance of time, state and step size on acceptance. -/
noncomputable def stepLoop (cfg : AIConfig) (rhs : RhsFunc) (numStates : ℕ)
    (tEnd : ℝ) : ℕ → ℝ → ℝ → ℝ → List ℝ → ℝ × List ℝ × ℝ
  | 0, tCurrent, _, suggested, y => (tCurrent, y, suggested)
  | fuel + 1, tCurrent, dt0, suggested, y =>
    if tCurrent < tEnd - 1 / 10 ^ 14 then
      let dt := if tEnd < tCurrent + dt0 then tEnd - tCurrent else dt0
      if dt < cfg.dtMin * (1 / 2) then (tCurrent, y, suggested)
      else
        match substep cfg rhs numStates tCurrent dt y with
        | .reject dt' => stepLoop cfg rhs numStates tEnd fuel tCurrent dt' suggested y
        | .accept sugg ySol =>
          let t' := tCurrent + dt
          let dtNext := max (min sugg (tEnd - t')) cfg.dtMin
          stepLoop cfg rhs numStates tEnd fuel t' dtNext sugg ySol
    else (tCurrent, y, suggested)

/-- AdaptiveIntegrator::step (lines 162-224): initial step-size clamping, then
the internal loop; returns the time reached, the advanced state and the
suggested step. -/
noncomputable def AIstep (cfg : AIConfig) (rhs : RhsFunc) (numStates : ℕ)
    (suggestedDt0 t dtTarget : ℝ) (y : List ℝ) : ℝ × List ℝ × ℝ :=
  let dt := min (max (min suggestedDt0 dtTarget) cfg.dtMin) cfg.dtMax
  stepLoop cfg rhs numStates (t + dtTarget) 100000 t dt suggestedDt0 y

/-! ## Claim theorems -/

/-- Helper: the absolute value of a rational is never below zero, as a
rewriting rule for deadband conditions. -/
theorem abs_lt_zero_iff (a : ℚ) : |a| < 0 ↔ False :=
  iff_false_intro (not_lt.mpr (abs_nonneg a))

/-! Helper lemmas about max-folds, the solver's unknown map and the residual
assembly, used to settle the mass-balance claim. -/

theorem foldlMax_init_le (l : List ℚ) : ∀ a : ℚ, a ≤ l.foldl max a := by
  induction l with
  | nil => intro a; exact le_rfl
  | cons y ys ih => intro a; exact le_trans (le_max_left a y) (ih (max a y))

theorem le_foldlMax_of_mem {l : List ℚ} {x : ℚ} (hx : x ∈ l) :
    ∀ a : ℚ, x ≤ l.foldl max a := by
  induction l with
  | nil => cases hx
  | cons y ys ih =>
    intro a
    rw [List.foldl_cons]
    rcases List.mem_cons.mp hx with h | h
    · subst h
      exact le_trans (le_max_right a x) (foldlMax_init_le ys (max a x))
    · exact ih h (max a y)

theorem foldlMax_eq_init_or_mem (l : List ℚ) :
    ∀ a : ℚ, l.foldl max a = a ∨ l.foldl max a ∈ l := by
  induction l with
  | nil => intro a; exact Or.inl rfl
  | cons y ys ih =>
    intro a
    rw [List.foldl_cons]
    rcases ih (max a y) with h | h
    · rw [h]
      rcases max_choice a y with h' | h'
      · exact Or.inl h'
      · rw [h']
        exact Or.inr (List.mem_cons_self y ys)
    · exact Or.inr (List.mem_cons_of_mem y h)

theorem buildUnknownMapFrom_length (nodes : List Node) :
    ∀ c : ℤ, (buildUnknownMapFrom c nodes).length = nodes.length := by
  induction nodes with
  | nil => intro c; rfl
  | cons nd rest ih =>
    intro c
    unfold buildUnknownMapFrom
    by_cases h : nd.isKnownPressure <;> simp [h, ih]

/-- Closed form of the unknown map: −1 on Ambient nodes, and the running count
of earlier non-Ambient nodes (offset by the start index) elsewhere. -/
theorem buildUnknownMapFrom_getD (nodes : List Node) :
    ∀ (c : ℤ) (i : ℕ), i < nodes.length →
      (buildUnknownMapFrom c nodes).getD i (-1) =
        if (nodes.getD i default).isKnownPressure then -1
        else c + ((nodes.take i).countP (fun nd => !nd.isKnownPressure) : ℤ) := by
  induction nodes with
  | nil => intro c i hi; cases hi
  | cons nd rest ih =>
    intro c i hi
    match i with
    | 0 =>
      unfold buildUnknownMapFrom
      by_cases h : nd.isKnownPressure <;> simp [h]
    | i + 1 =>
      have hi' : i < rest.length := Nat.lt_of_succ_lt_succ hi
      unfold buildUnknownMapFrom
      by_cases h : nd.isKnownPressure
      · rw [if_pos h, List.getD_cons_succ, ih c i hi', List.getD_cons_succ,
          List.take_succ_cons, List.countP_cons]
        simp [h]
      · rw [if_neg h, List.getD_cons_succ, ih (c + 1) i hi', List.getD_cons_succ,
          List.take_succ_cons, List.countP_cons]
        split <;> simp [h] <;> push_cast <;> ring

theorem unknownMap_neg_of_ambient {nodes : List Node} {i : ℕ}
    (hi : i < nodes.length) (h : (nodes.getD i default).isKnownPressure) :
    (buildUnknownMap nodes).getD i (-1) = -1 := by
  rw [buildUnknownMap, buildUnknownMapFrom_getD nodes 0 i hi, if_pos h]

theorem unknownMap_eq_countP {nodes : List Node} {i : ℕ}
    (hi : i < nodes.length) (h : ¬(nodes.getD i default).isKnownPressure) :
    (buildUnknownMap nodes).getD i (-1) =
      ((nodes.take i).countP (fun nd => !nd.isKnownPressure) : ℤ) := by
  rw [buildUnknownMap, buildUnknownMapFrom_getD nodes 0 i hi, if_neg h, zero_add]

theorem unknownMap_nonneg {nodes : List Node} {i : ℕ}
    (hi : i < nodes.length) (h : ¬(nodes.getD i default).isKnownPressure) :
    0 ≤ (buildUnknownMap nodes).getD i (-1) := by
  rw [unknownMap_eq_countP hi h]
  exact_mod_cast Nat.zero_le _

theorem unknown_of_unknownMap_nonneg {nodes : List Node} {i : ℕ}
    (hi : i < nodes.length) (h : 0 ≤ (buildUnknownMap nodes).getD i (-1)) :
    ¬(nodes.getD i default).isKnownPressure := by
  intro hamb
  rw [unknownMap_neg_of_ambient hi hamb] at h
  exact absurd h (by norm_num)

/-- Strict growth of the prefix count across a non-Ambient position. -/
theorem countP_take_lt_of_unknown {nodes : List Node} {i j : ℕ}
    (hij : i < j) (hj : j ≤ nodes.length)
    (hi : ¬(nodes.getD i default).isKnownPressure) :
    (nodes.take i).countP (fun nd => !nd.isKnownPressure) <
      (nodes.take j).countP (fun nd => !nd.isKnownPressure) := by
  have hilen : i < nodes.length := lt_of_lt_of_le hij hj
  have hsplit : nodes.take j = nodes.take i ++ (nodes.drop i).take (j - i) := by
    rw [← List.take_add]
    congr 1
    omega
  rw [hsplit, List.countP_append]
  have hdrop : nodes.drop i = nodes.getD i default :: nodes.drop (i + 1) := by
    rw [List.getD_eq_getElem _ _ hilen]
    exact List.drop_eq_getElem_cons hilen
  have hpv : (!(nodes.getD i default).isKnownPressure) = true := by
    cases hb : (nodes.getD i default).isKnownPressure
    · rfl
    · exact absurd hb hi
  have hpos : 0 < ((nodes.drop i).take (j - i)).countP (fun nd => !nd.isKnownPressure) := by
    have hji : 0 < j - i := by omega
    rw [hdrop]
    match hk : j - i, hji with
    | k + 1, _ =>
      rw [List.take_succ_cons, List.countP_cons]
      simp only [hpv, if_true]
      omega
  omega

/-- Injectivity of the unknown map on non-negative values. -/
theorem unknownMap_injective {nodes : List Node} {i j : ℕ}
    (hi : i < nodes.length) (hj : j < nodes.length)
    (hnn : 0 ≤ (buildUnknownMap nodes).getD i (-1))
    (heq : (buildUnknownMap nodes).getD i (-1) = (buildUnknownMap nodes).getD j (-1)) :
    i = j := by
  have hui := unknown_of_unknownMap_nonneg hi hnn
  have huj := unknown_of_unknownMap_nonneg hj (heq ▸ hnn)
  rcases lt_trichotomy i j with h | h | h
  · exfalso
    have := countP_take_lt_of_unknown h (le_of_lt hj) hui
    rw [unknownMap_eq_countP hi hui, unknownMap_eq_countP hj huj] at heq
    exact absurd (by exact_mod_cast heq) (Nat.ne_of_lt this)
  · exact h
  · exfalso
    have := countP_take_lt_of_unknown h (le_of_lt hi) huj
    rw [unknownMap_eq_countP hi hui, unknownMap_eq_countP hj huj] at heq
    exact absurd (by exact_mod_cast heq.symm) (Nat.ne_of_lt this)

/-- The unknown map stays below the number of unknowns. -/
theorem unknownMap_lt_count {nodes : List Node} {i : ℕ}
    (hi : i < nodes.length) (h : ¬(nodes.getD i default).isKnownPressure) :
    (buildUnknownMap nodes).getD i (-1) <
      (nodes.countP (fun nd => !nd.isKnownPressure) : ℤ) := by
  rw [unknownMap_eq_countP hi h]
  have := @countP_take_lt_of_unknown nodes i (i + 1) (Nat.lt_succ_self i)
    (Nat.succ_le_of_lt hi) h
  have htake : (nodes.take nodes.length).countP (fun nd => !nd.isKnownPressure)
      = nodes.countP (fun nd => !nd.isKnownPressure) := by
    rw [List.take_length]
  have hmono : (nodes.take (i + 1)).countP (fun nd => !nd.isKnownPressure)
      ≤ nodes.countP (fun nd => !nd.isKnownPressure) := by
    conv_rhs => rw [← List.take_append_drop (i + 1) nodes]
    rw [List.countP_append]
    omega
  exact_mod_cast lt_of_lt_of_le this hmono

/-- Surjectivity of the unknown map onto the first n equation indices. -/
theorem unknownMap_surjective (nodes : List Node) :
    ∀ (c : ℤ) (e : ℕ), e < nodes.countP (fun nd => !nd.isKnownPressure) →
      ∃ i < nodes.length, ¬(nodes.getD i default).isKnownPressure ∧
        (buildUnknownMapFrom c nodes).getD i (-1) = c + e := by
  induction nodes with
  | nil => intro c e he; simp at he
  | cons nd rest ih =>
    intro c e he
    rw [List.countP_cons] at he
    by_cases h : nd.isKnownPressure
    · have he' : e < rest.countP (fun nd => !nd.isKnownPressure) := by
        simp [h] at he; omega
      obtain ⟨i, hi, hu, hv⟩ := ih c e he'
      refine ⟨i + 1, Nat.succ_lt_succ hi, by simpa using hu, ?_⟩
      unfold buildUnknownMapFrom
      simpa [h] using hv
    · match e with
      | 0 =>
        refine ⟨0, Nat.succ_pos _, by simpa using h, ?_⟩
        unfold buildUnknownMapFrom
        simp [h]
      | e + 1 =>
        have he' : e < rest.countP (fun nd => !nd.isKnownPressure) := by
          simp [h] at he; omega
        obtain ⟨i, hi, hu, hv⟩ := ih (c + 1) e he'
        refine ⟨i + 1, Nat.succ_lt_succ hi, by simpa using hu, ?_⟩
        unfold buildUnknownMapFrom
        rw [if_neg (by simp [h])]
        rw [List.getD_cons_succ, hv]
        push_cast
        ring

theorem Vec.add_apply (R : Vec) (i : ℕ) (v : ℚ) (e : ℕ) :
    R.add i v e = if e = i then R e + v else R e := rfl

/-- Pointwise value of one residual step. -/
theorem residualStep_apply (unknownMap : List ℤ) (R : Vec) (lk : Link) (e : ℕ) :
    residualStep unknownMap R lk e =
      R e +
        ((if 0 ≤ unknownMap.getD lk.nodeTo (-1) ∧
              e = (unknownMap.getD lk.nodeTo (-1)).toNat then lk.massFlow else 0) -
         (if 0 ≤ unknownMap.getD lk.nodeFrom (-1) ∧
              e = (unknownMap.getD lk.nodeFrom (-1)).toNat then lk.massFlow else 0)) := by
  simp only [residualStep, ite_apply, Vec.add_apply]
  split_ifs <;> first | ring1 | (exfalso; tauto)

/-- Pointwise value of the assembled residual: the sum over links of inflow
minus outflow indicators at equation e. -/
theorem assembleResidual_apply (unknownMap : List ℤ) (links : List Link) :
    ∀ (R0 : Vec) (e : ℕ),
      (links.foldl (residualStep unknownMap) R0) e =
        R0 e + (links.map (fun lk =>
          (if 0 ≤ unknownMap.getD lk.nodeTo (-1) ∧
               e = (unknownMap.getD lk.nodeTo (-1)).toNat then lk.massFlow else 0) -
          (if 0 ≤ unknownMap.getD lk.nodeFrom (-1) ∧
               e = (unknownMap.getD lk.nodeFrom (-1)).toNat then lk.massFlow else 0))).sum := by
  induction links with
  | nil => intro R0 e; simp
  | cons lk ls ih =>
    intro R0 e
    rw [List.foldl_cons, ih (residualStep unknownMap R0 lk) e,
      residualStep_apply, List.map_cons, List.sum_cons]
    ring

/-- At a non-Ambient node's equation index, the assembled residual is exactly
the node's net mass imbalance, provided link endpoints are in range. -/
theorem assembleResidual_eq_imbalance {nodes : List Node} {links : List Link}
    {i : ℕ} (hi : i < nodes.length)
    (hu : ¬(nodes.getD i default).isKnownPressure)
    (hvalid : ∀ lk ∈ links, lk.nodeFrom < nodes.length ∧ lk.nodeTo < nodes.length) :
    assembleResidual links (buildUnknownMap nodes)
        ((buildUnknownMap nodes).getD i (-1)).toNat = netImbalance links i := by
  have hnn := unknownMap_nonneg hi hu
  unfold assembleResidual netImbalance
  rw [assembleResidual_apply]
  rw [Vec.zero, zero_add]
  congr 1
  apply List.map_congr_left
  intro lk hlk
  obtain ⟨hf, ht⟩ := hvalid lk hlk
  congr 1
  · by_cases hto : lk.nodeTo = i
    · subst hto
      rw [if_pos ⟨hnn, rfl⟩, if_pos rfl]
    · rw [if_neg hto]
      by_cases hc : 0 ≤ (buildUnknownMap nodes).getD lk.nodeTo (-1) ∧
          ((buildUnknownMap nodes).getD i (-1)).toNat =
            ((buildUnknownMap nodes).getD lk.nodeTo (-1)).toNat
      · exfalso
        obtain ⟨hc1, hc2⟩ := hc
        have heq : (buildUnknownMap nodes).getD i (-1) =
            (buildUnknownMap nodes).getD lk.nodeTo (-1) := by
          have h1 := Int.toNat_of_nonneg hnn
          have h2 := Int.toNat_of_nonneg hc1
          omega
        exact hto (unknownMap_injective ht hi hc1 heq.symm)
      · rw [if_neg hc]
  · by_cases hfr : lk.nodeFrom = i
    · subst hfr
      rw [if_pos ⟨hnn, rfl⟩, if_pos rfl]
    · rw [if_neg hfr]
      by_cases hc : 0 ≤ (buildUnknownMap nodes).getD lk.nodeFrom (-1) ∧
          ((buildUnknownMap nodes).getD i (-1)).toNat =
            ((buildUnknownMap nodes).getD lk.nodeFrom (-1)).toNat
      · exfalso
        obtain ⟨hc1, hc2⟩ := hc
        have heq : (buildUnknownMap nodes).getD i (-1) =
            (buildUnknownMap nodes).getD lk.nodeFrom (-1) := by
          have h1 := Int.toNat_of_nonneg hnn
          have h2 := Int.toNat_of_nonneg hc1
          omega
        exact hfr (unknownMap_injective hf hi hc1 heq.symm)
      · rw [if_neg hc]

theorem maxImbalanceFrom_init_le (links : List Link) :
    ∀ (nds : List Node) (i : ℕ) (acc : ℚ), acc ≤ maxImbalanceFrom links i nds acc := by
  intro nds
  induction nds with
  | nil => intro i acc; exact le_rfl
  | cons nd rest ih =>
    intro i acc
    unfold maxImbalanceFrom
    by_cases h : nd.isKnownPressure
    · simpa [h] using ih (i + 1) acc
    · simp only [h]
      exact le_trans (le_max_left acc _) (by simpa using ih (i + 1) (max acc _))

theorem le_maxImbalanceFrom (links : List Link) :
    ∀ (nds : List Node) (i0 : ℕ) (acc : ℚ) (k : ℕ), k < nds.length →
      ¬(nds.getD k default).isKnownPressure →
      |netImbalance links (i0 + k)| ≤ maxImbalanceFrom links i0 nds acc := by
  intro nds
  induction nds with
  | nil => intro i0 acc k hk; cases hk
  | cons nd rest ih =>
    intro i0 acc k hk hu
    unfold maxImbalanceFrom
    match k with
    | 0 =>
      simp only [List.getD_cons_zero] at hu
      simp only [hu, if_neg hu, Nat.add_zero]
      exact le_trans (le_max_right acc _) (maxImbalanceFrom_init_le links rest (i0 + 1) _)
    | k + 1 =>
      have hk' : k < rest.length := Nat.lt_of_succ_lt_succ hk
      have hu' : ¬(rest.getD k default).isKnownPressure := by
        simpa [List.getD_cons_succ] using hu
      have harith : i0 + (k + 1) = (i0 + 1) + k := by omega
      rw [harith]
      by_cases h : nd.isKnownPressure <;> simp only [h] <;>
        [exact ih (i0 + 1) acc k hk' hu'; exact ih (i0 + 1) _ k hk' hu']

theorem maxImbalanceFrom_eq_init_or (links : List Link) :
    ∀ (nds : List Node) (i0 : ℕ) (acc : ℚ),
      maxImbalanceFrom links i0 nds acc = acc ∨
        ∃ k < nds.length, ¬(nds.getD k default).isKnownPressure ∧
          maxImbalanceFrom links i0 nds acc = |netImbalance links (i0 + k)| := by
  intro nds
  induction nds with
  | nil => intro i0 acc; exact Or.inl rfl
  | cons nd rest ih =>
    intro i0 acc
    unfold maxImbalanceFrom
    by_cases h : nd.isKnownPressure
    · simp only [h, if_pos]
      rcases ih (i0 + 1) acc with h1 | ⟨k, hk, hu, hv⟩
      · exact Or.inl (by simpa using h1)
      · refine Or.inr ⟨k + 1, Nat.succ_lt_succ hk, by simpa using hu, ?_⟩
        have harith : i0 + (k + 1) = (i0 + 1) + k := by omega
        rw [harith]
        simpa using hv
    · simp only [h, if_neg]
      rcases ih (i0 + 1) (max acc |netImbalance links i0|) with h1 | ⟨k, hk, hu, hv⟩
      · rcases max_choice acc |netImbalance links i0| with h2 | h2
        · exact Or.inl (by simp only [Bool.false_eq_true, if_false]; rw [h1, h2])
        · refine Or.inr ⟨0, Nat.succ_pos _, by simpa using h, ?_⟩
          simp only [Bool.false_eq_true, if_false, Nat.add_zero]
          rw [h1, h2]
      · refine Or.inr ⟨k + 1, Nat.succ_lt_succ hk, by simpa using hu, ?_⟩
        have harith : i0 + (k + 1) = (i0 + 1) + k := by omega
        rw [harith]
        simp only [Bool.false_eq_true, if_false]
        exact hv

/-! Preservation and fixpoint lemmas for the Newton loop. -/

theorem updateDensity_type (nd : Node) : nd.updateDensity.type = nd.type := by
  unfold Node.updateDensity Node.updateDensityAt
  split <;> rfl

theorem computeFlows_nodes (net : Network) : (computeFlows net).nodes = net.nodes := rfl

theorem updateDensity_idem (nd : Node) :
    nd.updateDensity.updateDensity = nd.updateDensity := by
  unfold Node.updateDensity Node.updateDensityAt
  by_cases h : 0 < nd.temperature <;> simp [h]

theorem map_updateDensity_idem (l : List Node) :
    (l.map Node.updateDensity).map Node.updateDensity = l.map Node.updateDensity := by
  rw [List.map_map]
  exact List.map_congr_left fun nd _ => updateDensity_idem nd

theorem updateAllDensities_types (net : Network) :
    net.updateAllDensities.nodes.map Node.type = net.nodes.map Node.type := by
  unfold Network.updateAllDensities
  rw [List.map_map]
  exact List.map_congr_left fun nd _ => updateDensity_type nd

theorem computeFlows_endpoints (net : Network) :
    (computeFlows net).links.map (fun lk => (lk.nodeFrom, lk.nodeTo)) =
      net.links.map (fun lk => (lk.nodeFrom, lk.nodeTo)) := by
  unfold computeFlows
  rw [List.map_map]
  exact List.map_congr_left fun lk _ => rfl

theorem applyPressureUpdate_types (factor : ℚ) (dP : Vec) :
    ∀ (nds : List Node) (eqs : List ℤ),
      (applyPressureUpdate factor dP nds eqs).map Node.type = nds.map Node.type := by
  intro nds
  induction nds with
  | nil => intro eqs; cases eqs <;> rfl
  | cons nd rest ih =>
    intro eqs
    match eqs with
    | [] => rfl
    | eq :: eqs' =>
      unfold applyPressureUpdate
      rw [List.map_cons, List.map_cons, ih eqs']
      by_cases h : 0 ≤ eq <;> simp [h]

theorem applyUpdateSUR_types (relaxFactor : ℚ) (net : Network) (dP : Vec)
    (unknownMap : List ℤ) :
    (applyUpdateSUR relaxFactor net dP unknownMap).nodes.map Node.type
      = net.nodes.map Node.type :=
  applyPressureUpdate_types _ _ _ _

theorem applyUpdateSUR_links (relaxFactor : ℚ) (net : Network) (dP : Vec)
    (unknownMap : List ℤ) :
    (applyUpdateSUR relaxFactor net dP unknownMap).links = net.links := rfl

theorem applyUpdateTR_nodes_types (backend : LinearBackend) (net : Network)
    (dP : Vec) (unknownMap : List ℤ) (tr pr : ℚ) (n : ℕ) :
    (applyUpdateTR backend net dP unknownMap tr pr n).1.nodes.map Node.type
      = net.nodes.map Node.type :=
  applyPressureUpdate_types _ _ _ _

theorem applyUpdateTR_links (backend : LinearBackend) (net : Network)
    (dP : Vec) (unknownMap : List ℤ) (tr pr : ℚ) (n : ℕ) :
    (applyUpdateTR backend net dP unknownMap tr pr n).1.links = net.links := rfl

theorem isKnownPressure_congr {nd1 nd2 : Node} (h : nd1.type = nd2.type) :
    nd1.isKnownPressure = nd2.isKnownPressure := by
  unfold Node.isKnownPressure
  rw [h]

theorem buildUnknownMapFrom_congr :
    ∀ {n1 n2 : List Node}, n1.map Node.type = n2.map Node.type →
      ∀ c, buildUnknownMapFrom c n1 = buildUnknownMapFrom c n2 := by
  intro n1
  induction n1 with
  | nil =>
    intro n2 h c
    cases n2 with
    | nil => rfl
    | cons _ _ => simp at h
  | cons nd rest ih =>
    intro n2 h c
    cases n2 with
    | nil => simp at h
    | cons nd2 rest2 =>
      simp only [List.map_cons, List.cons.injEq] at h
      unfold buildUnknownMapFrom
      rw [isKnownPressure_congr h.1, ih h.2, ih h.2]

theorem countP_unknown_congr :
    ∀ {n1 n2 : List Node}, n1.map Node.type = n2.map Node.type →
      n1.countP (fun nd => !nd.isKnownPressure) =
        n2.countP (fun nd => !nd.isKnownPressure) := by
  intro n1
  induction n1 with
  | nil =>
    intro n2 h
    cases n2 with
    | nil => rfl
    | cons _ _ => simp at h
  | cons nd rest ih =>
    intro n2 h
    cases n2 with
    | nil => simp at h
    | cons nd2 rest2 =>
      simp only [List.map_cons, List.cons.injEq] at h
      rw [List.countP_cons, List.countP_cons, ih h.2, isKnownPressure_congr h.1]

theorem getUnknownCount_eq_countP (net : Network) :
    net.getUnknownCount = net.nodes.countP (fun nd => !nd.isKnownPressure) := by
  unfold Network.getUnknownCount
  rw [← List.countP_eq_length_filter]

/-- The Newton loop never changes the node types or the link endpoints. -/
theorem newtonLoop_shape (backend : LinearBackend) (cfg : SolverConfig)
    (unknownMap : List ℤ) (n : ℕ) :
    ∀ (fuel : ℕ) (net : Network) (tr : ℚ) (its : ℕ) (mr : ℚ),
      ((newtonLoop backend cfg unknownMap n fuel net tr its mr).1.nodes.map Node.type
          = net.nodes.map Node.type) ∧
      ((newtonLoop backend cfg unknownMap n fuel net tr its mr).1.links.map
          (fun lk => (lk.nodeFrom, lk.nodeTo))
          = net.links.map (fun lk => (lk.nodeFrom, lk.nodeTo))) := by
  intro fuel
  induction fuel with
  | zero => intro net tr its mr; exact ⟨rfl, rfl⟩
  | succ f ih =>
    intro net tr its mr
    have hflow_types : (computeFlows net.updateAllDensities).nodes.map Node.type
        = net.nodes.map Node.type := by
      rw [computeFlows_nodes]
      exact updateAllDensities_types net
    have hflow_ends : (computeFlows net.updateAllDensities).links.map
        (fun lk => (lk.nodeFrom, lk.nodeTo))
        = net.links.map (fun lk => (lk.nodeFrom, lk.nodeTo)) :=
      computeFlows_endpoints net.updateAllDensities
    simp only [newtonLoop]
    by_cases hc : maxResidualOf
        (assembleResidual (computeFlows net.updateAllDensities).links unknownMap) n
        < cfg.convergenceTol
    · rw [if_pos hc]
      exact ⟨hflow_types, hflow_ends⟩
    · rw [if_neg hc]
      rcases hls : backend.linSolve
          (assembleJacobian (computeFlows net.updateAllDensities).links unknownMap)
          (fun i => -(assembleResidual (computeFlows net.updateAllDensities).links
            unknownMap) i) n with _ | dP
      · exact ⟨hflow_types, hflow_ends⟩
      · rcases hm : cfg.method
        · dsimp only
          refine ⟨?_, ?_⟩
          · rw [(ih _ _ _ _).1, applyUpdateSUR_types]
            exact hflow_types
          · rw [(ih _ _ _ _).2, applyUpdateSUR_links]
            exact hflow_ends
        · dsimp only
          refine ⟨?_, ?_⟩
          · rw [(ih _ _ _ _).1, applyUpdateTR_nodes_types]
            exact hflow_types
          · rw [(ih _ _ _ _).2, applyUpdateTR_links]
            exact hflow_ends

/-- When the Newton loop reports convergence, the returned network is the
flow-evaluated state of some iterate, and the reported residual is the
assembled infinity norm, strictly below the tolerance. -/
theorem newtonLoop_converged_spec (backend : LinearBackend) (cfg : SolverConfig)
    (unknownMap : List ℤ) (n : ℕ) :
    ∀ (fuel : ℕ) (net : Network) (tr : ℚ) (its : ℕ) (mr : ℚ)
      (netF : Network) (iters : ℕ) (mrF : ℚ),
      newtonLoop backend cfg unknownMap n fuel net tr its mr = (netF, iters, mrF, true) →
      (∃ X : Network, netF = computeFlows X.updateAllDensities) ∧
      mrF = maxResidualOf (assembleResidual netF.links unknownMap) n ∧
      mrF < cfg.convergenceTol := by
  intro fuel
  induction fuel with
  | zero =>
    intro net tr its mr netF iters mrF h
    simp only [newtonLoop, Prod.mk.injEq] at h
    exact absurd h.2.2.2 (by simp)
  | succ f ih =>
    intro net tr its mr netF iters mrF h
    simp only [newtonLoop] at h
    by_cases hc : maxResidualOf
        (assembleResidual (computeFlows net.updateAllDensities).links unknownMap) n
        < cfg.convergenceTol
    · rw [if_pos hc] at h
      simp only [Prod.mk.injEq] at h
      obtain ⟨h1, _, h3, _⟩ := h
      subst h1
      subst h3
      exact ⟨⟨net, rfl⟩, rfl, hc⟩
    · rw [if_neg hc] at h
      rcases hls : backend.linSolve
          (assembleJacobian (computeFlows net.updateAllDensities).links unknownMap)
          (fun i => -(assembleResidual (computeFlows net.updateAllDensities).links
            unknownMap) i) n with _ | dP <;> rw [hls] at h <;> dsimp only at h
      · simp only [Prod.mk.injEq] at h
        exact absurd h.2.2.2 (by simp)
      · rcases hm : cfg.method <;> rw [hm] at h <;> dsimp only at h
        · exact ih _ _ _ _ _ _ _ h
        · exact ih _ _ _ _ _ _ _ h

/-- Recomputing the flows at an already flow-evaluated state is the
identity. -/
theorem computeFlows_idem_on (Y X1 : Network) (hn : Y.nodes = X1.nodes)
    (hl : Y.links = (computeFlows X1).links) : computeFlows Y = computeFlows X1 := by
  unfold computeFlows
  congr 1
  rw [hl]
  show ((computeFlows X1).links).map _ = _
  unfold computeFlows
  rw [List.map_map]
  apply List.map_congr_left
  intro lk _
  have hd : computeDeltaP Y { lk with
      massFlow := (lk.element (computeDeltaP X1 lk)
        (((X1.nodes.getD lk.nodeFrom default).density +
          (X1.nodes.getD lk.nodeTo default).density) / 2)).massFlow,
      derivative := (lk.element (computeDeltaP X1 lk)
        (((X1.nodes.getD lk.nodeFrom default).density +
          (X1.nodes.getD lk.nodeTo default).density) / 2)).derivative }
      = computeDeltaP X1 lk := by
    unfold computeDeltaP
    rw [hn]
  simp only [Function.comp_apply, hd, hn]

theorem computeFlows_updateAll_fixpoint (X : Network) :
    computeFlows ((computeFlows X.updateAllDensities).updateAllDensities)
      = computeFlows X.updateAllDensities := by
  apply computeFlows_idem_on
  · show ((computeFlows X.updateAllDensities).nodes).map Node.updateDensity
      = (X.updateAllDensities).nodes
    rw [computeFlows_nodes]
    exact map_updateDensity_idem X.nodes
  · rfl

/-- When every node has known pressure, the imbalance fold returns its
accumulator unchanged. -/
theorem maxImbalanceFrom_all_known (links : List Link) :
    ∀ (nds : List Node) (i : ℕ) (acc : ℚ),
      (∀ nd ∈ nds, nd.isKnownPressure) → maxImbalanceFrom links i nds acc = acc := by
  intro nds
  induction nds with
  | nil => intro i acc _; rfl
  | cons nd rest ih =>
    intro i acc h
    unfold maxImbalanceFrom
    rw [if_pos (h nd (List.mem_cons_self nd rest))]
    exact ih (i + 1) acc (fun x hx => h x (List.mem_cons_of_mem nd hx))

/-- When the first iterate already meets the tolerance, the Newton loop stops
there with the flow-evaluated network. -/
theorem newtonLoop_first_step_converged (backend : LinearBackend)
    (cfg : SolverConfig) (unknownMap : List ℤ) (n fuel : ℕ) (net : Network)
    (tr : ℚ) (its : ℕ) (mr : ℚ)
    (h : maxResidualOf
        (assembleResidual (computeFlows net.updateAllDensities).links unknownMap) n
        < cfg.convergenceTol) :
    newtonLoop backend cfg unknownMap n (fuel + 1) net tr its mr =
      (computeFlows net.updateAllDensities, its + 1,
       maxResidualOf
         (assembleResidual (computeFlows net.updateAllDensities).links unknownMap) n,
       true) := by
  simp only [newtonLoop]
  rw [if_pos h]

/-- One simulated time step strictly shrinks the remaining-step count
Nat.ceil((endTime - t) / timeStep), so the run loop's budget suffices: with a
positive time step and a progress callback that never cancels, the loop always
reaches the end time and reports completion. -/
theorem runLoop_completes {α : Type} (env : DriverEnv α) (species : List Species)
    (hc ho : Bool) (progress : ℚ → ℚ → Bool) (cfg : TransientConfig)
    (hdt : 0 < cfg.timeStep)
    (hprog : ∀ t1 t2, progress t1 t2 = true) :
    ∀ (fuel : ℕ) (t nextOutput : ℚ) (net : Network) (a : α)
      (history : List Snapshot),
      Nat.ceil ((cfg.endTime - t) / cfg.timeStep) < fuel →
      (runLoop env species hc ho progress cfg fuel t nextOutput net a
        history).completed = true := by
  intro fuel
  induction fuel with
  | zero =>
    intro t nOut net a history hm
    exact absurd hm (Nat.not_lt_zero _)
  | succ f ih =>
    intro t nOut net a history hm
    simp only [runLoop]
    by_cases hT : t < cfg.endTime - EPS_RUN
    · rw [if_pos hT, if_pos (hprog _ _)]
      apply ih
      have hTt : 0 < cfg.endTime - t := by
        have heps : (0 : ℚ) < EPS_RUN := by norm_num [EPS_RUN]
        linarith
      have hx : (0 : ℚ) < (cfg.endTime - t) / cfg.timeStep := div_pos hTt hdt
      have h1 : 0 < Nat.ceil ((cfg.endTime - t) / cfg.timeStep) :=
        Nat.ceil_pos.mpr hx
      rcases le_total cfg.timeStep (cfg.endTime - t) with hle | hle
      · rw [min_eq_left hle]
        have harith : (cfg.endTime - (t + cfg.timeStep)) / cfg.timeStep =
            (cfg.endTime - t) / cfg.timeStep - 1 := by
          field_simp
          ring
        rw [harith]
        have hcast : ((Nat.ceil ((cfg.endTime - t) / cfg.timeStep) - 1 : ℕ) : ℚ) =
            (Nat.ceil ((cfg.endTime - t) / cfg.timeStep) : ℚ) - 1 := by
          rw [Nat.cast_sub h1]
          norm_num
        have hle2 : Nat.ceil ((cfg.endTime - t) / cfg.timeStep - 1) ≤
            Nat.ceil ((cfg.endTime - t) / cfg.timeStep) - 1 := by
          apply Nat.ceil_le.mpr
          rw [hcast]
          have := Nat.le_ceil ((cfg.endTime - t) / cfg.timeStep)
          linarith
        omega
      · rw [min_eq_right hle]
        have h0 : cfg.endTime - (t + (cfg.endTime - t)) = 0 := by ring
        rw [h0, zero_div, Nat.ceil_zero]
        omega
    · rw [if_neg hT]

/-- The simplified-Newton loop stops as soon as the residual of the current
iterate is below 1e-10. -/
theorem bdf1Newton_stop (rhs : RhsFunc) (n : ℕ) (t dt : ℝ) (yn : List ℝ)
    (fuel : ℕ) (ynp1 : List ℝ)
    (h : (((List.range n).map (fun i =>
        ynp1.getD i 0 - yn.getD i 0 - dt * (rhs (t + dt) ynp1).getD i 0)).map
        (fun r => |r|)).foldl max 0 < 1 / 10 ^ 10) :
    bdf1Newton rhs n t dt yn (fuel + 1) ynp1 = ynp1 := by
  simp only [bdf1Newton]
  rw [if_pos h]

/-- When the explicit-Euler predictor already satisfies the BDF-1 residual
test, stepBDF1 returns the predictor itself. -/
theorem stepBDF1_quick (rhs : RhsFunc) (t dt y0 : ℝ)
    (h : |y0 + dt * (rhs t [y0]).getD 0 0 - y0 -
        dt * (rhs (t + dt) [y0 + dt * (rhs t [y0]).getD 0 0]).getD 0 0|
        < 1 / 10 ^ 10) :
    stepBDF1 rhs 1 t dt [y0] = [y0 + dt * (rhs t [y0]).getD 0 0] := by
  have hstop : bdf1Newton rhs 1 t dt [y0] 10 [y0 + dt * (rhs t [y0]).getD 0 0]
      = [y0 + dt * (rhs t [y0]).getD 0 0] :=
    bdf1Newton_stop rhs 1 t dt [y0] 9 [y0 + dt * (rhs t [y0]).getD 0 0] (by
      simp only [List.range_succ, List.range_zero, List.nil_append, List.map_cons,
        List.map_nil, List.getD_cons_zero, List.foldl_cons, List.foldl_nil]
      exact max_lt (by norm_num) h)
  simp only [stepBDF1, List.range_succ, List.range_zero, List.nil_append,
    List.map_cons, List.map_nil, List.getD_cons_zero]
  exact hstop

/-- C5 counterexample: the claim says Fan construction fails whenever
ΔP_shutoff ≤ 0, but Fan(0.1, −100) succeeds because the constructor stores
the absolute value −100 ↦ 100 before validating. -/
theorem c5_fan_negative_shutoff_accepted :
    Fan.mk' (1 / 10) (-100) = Except.ok ⟨1 / 10, 100⟩ ∧ (-100 : ℚ) ≤ 0 := by
  refine ⟨?_, by norm_num⟩
  unfold Fan.mk'
  norm_num

/-- C5 amended: constructing Fan(Q_max, ΔP_shutoff) fails with InvalidParameter
exactly when Q_max ≤ 0 or ΔP_shutoff = 0; otherwise it succeeds and stores
|ΔP_shutoff| as the shutoff pressure. -/
theorem c5_fan_validation (q p : ℚ) :
    ((∃ e, Fan.mk' q p = Except.error e) ↔ q ≤ 0 ∨ p = 0) ∧
    (0 < q → p ≠ 0 → Fan.mk' q p = Except.ok ⟨q, |p|⟩) := by
  constructor
  · unfold Fan.mk'
    by_cases hq : q ≤ 0
    · exact ⟨fun _ => Or.inl hq, fun _ => ⟨.InvalidParameter, by simp [hq]⟩⟩
    · by_cases hp : |p| ≤ 0
      · have hp0 : p = 0 := abs_nonpos_iff.mp hp
        exact ⟨fun _ => Or.inr hp0, fun _ => ⟨.InvalidParameter, by simp [hq, hp]⟩⟩
      · have hp0 : p ≠ 0 := by
          intro h
          exact hp (le_of_eq (by simp [h]))
        constructor
        · rintro ⟨e, he⟩
          rw [if_neg hq, if_neg hp] at he
          exact absurd he (by simp)
        · rintro (h | h)
          · exact absurd h hq
          · exact absurd h hp0
  · intro hq hp
    unfold Fan.mk'
    rw [if_neg (not_le.mpr hq), if_neg (not_le.mpr (abs_pos.mpr hp))]

/-- C5 witness: Fan(0.1, −100) satisfies the amended success condition and
yields the stored shutoff pressure 100 = |−100|. -/
theorem c5_fan_validation_witness :
    (0 : ℚ) < 1 / 10 ∧ (-100 : ℚ) ≠ 0 ∧
      Fan.mk' (1 / 10) (-100) = Except.ok ⟨1 / 10, |(-100 : ℚ)|⟩ :=
  ⟨by norm_num, by norm_num,
    (c5_fan_validation (1 / 10) (-100)).2 (by norm_num) (by norm_num)⟩

/-- C8: Controller::update computes the deadbanded error e, the incremental
PI update Δu = K_p·(e − e_prev) + K_i·(e + e_prev), clamps u + Δu to the
output bounds, and stores e; with K_p = 0.5, K_i = 0.1, setpoint 1 and zero
initial state, readings 0.8, 0.9, 0.95 give outputs 0.12, 0.10, 0.09 exactly,
hence within 1e-10. -/
theorem c8_controller_incremental_pi :
    (∀ (c : Controller) (y : ℚ),
      (c.update y).output =
        min (max (c.output
          + (c.Kp * ((if |c.setpoint - y| < c.deadband then 0 else c.setpoint - y)
              - c.prevError)
          + c.Ki * ((if |c.setpoint - y| < c.deadband then 0 else c.setpoint - y)
              + c.prevError))) c.outputMin) c.outputMax ∧
      (c.update y).prevError =
        (if |c.setpoint - y| < c.deadband then 0 else c.setpoint - y)) ∧
    (Controller.update { setpoint := 1, Kp := 1 / 2, Ki := 1 / 10 } (4 / 5)).output
        = 12 / 100 ∧
    ((Controller.update { setpoint := 1, Kp := 1 / 2, Ki := 1 / 10 } (4 / 5)).update
        (9 / 10)).output = 10 / 100 ∧
    (((Controller.update { setpoint := 1, Kp := 1 / 2, Ki := 1 / 10 } (4 / 5)).update
        (9 / 10)).update (19 / 20)).output = 9 / 100 ∧
    |(((Controller.update { setpoint := 1, Kp := 1 / 2, Ki := 1 / 10 } (4 / 5)).update
        (9 / 10)).update (19 / 20)).output - 9 / 100| ≤ 1 / 10 ^ 10 := by
  refine ⟨fun c y => ⟨by simp [Controller.update], by simp [Controller.update]⟩,
    ?_, ?_, ?_, ?_⟩ <;>
  · simp only [Controller.update]
    norm_num [abs_lt_zero_iff, max_def, min_def]

/-- C1: the density-feedback step computes the mixture density
P_abs/(R_mix·T) but discards it; the density actually written is the dry-air
value P_abs/(R_air·T), independent of the concentrations.  Shown on a zone at
293.15 K with one non-trace species of molar mass 0.044 at 0.1 kg/m³: the
written density equals the dry-air value for concentration 0.1 and for
concentration 0 alike, and differs from the mixture value the claim
prescribes. -/
theorem c1_density_feedback_uses_dry_air_constant :
    (((updateDensitiesFromConcentrations
        [{ id := 0, molarMass := 11 / 250, isTrace := false }] [[1 / 10]]
        { nodes := [{ id := 1, type := .Normal, pressure := 0,
                      temperature := T_REF, volume := 60, density := 6 / 5 }],
          links := [] }).nodes.getD 0 default).density
      = P_ATM / (R_AIR * T_REF)) ∧
    (((updateDensitiesFromConcentrations
        [{ id := 0, molarMass := 11 / 250, isTrace := false }] [[0]]
        { nodes := [{ id := 1, type := .Normal, pressure := 0,
                      temperature := T_REF, volume := 60, density := 6 / 5 }],
          links := [] }).nodes.getD 0 default).density
      = P_ATM / (R_AIR * T_REF)) ∧
    specMixtureDensity [{ id := 0, molarMass := 11 / 250, isTrace := false }]
        [1 / 10]
        { id := 1, type := .Normal, pressure := 0,
          temperature := T_REF, volume := 60, density := 6 / 5 }
      ≠ P_ATM / (R_AIR * T_REF) := by
  refine ⟨?_, ?_, ?_⟩ <;>
    norm_num [updateDensitiesFromConcentrations, feedbackNodes, densityFeedbackNode,
      mixtureCorrectionSum, specMixtureDensity, Node.updateDensityAt,
      Node.isKnownPressure, T_REF, R_AIR, P_ATM]

/-- C2: the contaminant assembly delivers the full upwind flux q·C_up to the
acceptor zone; no (1 − η) filter factor exists anywhere in the solver.  With
an Ambient donor at concentration 1, unit volumetric flow through a link whose
element is a Filter with η = 0.9, the acceptor RHS receives 1, not
(1 − 0.9)·1·1 = 0.1. -/
theorem c2_filter_efficiency_not_applied :
    ((assembleSpecies (fun _ => 1) [{ id := 0 }] [] [] [[1], [0]]
        { nodes := [{ id := 0, type := .Ambient, density := 1 },
                    { id := 1, type := .Normal, volume := 60, density := 6 / 5 }],
          links := [{ id := 0, nodeFrom := 0, nodeTo := 1, massFlow := 1 }] }
        0 0 1).map (fun Ab => Ab.2 0)) = some 1 ∧
    (1 : ℚ) ≠ (1 - 9 / 10) * 1 * 1 := by
  refine ⟨?_, by norm_num⟩
  norm_num [assembleSpecies, speciesSourceTerms, speciesFlowTerms, speciesDiagonal,
    buildUnknownMap, buildUnknownMapFrom, Node.isKnownPressure,
    Mat.add, Vec.add, Mat.zero, Vec.zero, List.getD_cons_zero, List.getD_cons_succ]

/-- C4 counterexample: in the single-species assembly a zone of volume 0.5 m³
contributes 0.5/Δt to its diagonal, not the 1/Δt the claimed flooring at 1 m³
would give: the assembled diagonal differs between volume 0.5 and volume 1. -/
theorem c4_single_species_volume_not_floored_at_one :
    ((assembleSpecies (fun _ => 1) [{ id := 0 }] [] [] [[0], [2]]
        { nodes := [{ id := 0, type := .Ambient, density := 1 },
                    { id := 1, type := .Normal, volume := 1 / 2, density := 6 / 5 }],
          links := [] } 0 0 1).map (fun Ab => Ab.1 0 0)) = some (1 / 2) ∧
    ((assembleSpecies (fun _ => 1) [{ id := 0 }] [] [] [[0], [2]]
        { nodes := [{ id := 0, type := .Ambient, density := 1 },
                    { id := 1, type := .Normal, volume := 1, density := 6 / 5 }],
          links := [] } 0 0 1).map (fun Ab => Ab.1 0 0)) = some 1 ∧
    (1 / 2 : ℚ) ≠ 1 := by
  refine ⟨?_, ?_, by norm_num⟩ <;>
    norm_num [assembleSpecies, speciesSourceTerms, speciesFlowTerms, speciesDiagonal,
      buildUnknownMap, buildUnknownMapFrom, Node.isKnownPressure,
      Mat.add, Vec.add, Mat.zero, Vec.zero, List.getD_cons_zero, List.getD_cons_succ]

/-- C4 amended: on a one-zone network with a removal source, for every volume
V the single-species assembly uses V replaced by 1 only when V ≤ 0 in the
time-derivative, RHS and decay terms, the coupled assembly uses max(V, 1)
there, and the removal term R·V uses the stored volume unfloored in both
paths. -/
theorem c4_volume_flooring_amended (e : ℚ → ℚ) (V dt lam R G c0 : ℚ) :
    ((assembleSpecies e [{ id := 0, decayRate := lam }]
        [{ zoneId := 1, speciesId := 0, generationRate := G, removalRate := R }] []
        [[0], [c0]]
        { nodes := [{ id := 0, type := .Ambient, density := 1 },
                    { id := 1, type := .Normal, volume := V, density := 6 / 5 }],
          links := [] } 0 0 dt).map (fun Ab => (Ab.1 0 0, Ab.2 0)))
      = some ((if V ≤ 0 then 1 else V) / dt
                + (if 0 < lam then lam * (if V ≤ 0 then 1 else V) else 0)
                + (if 0 < R then R * V else 0),
              (if V ≤ 0 then 1 else V) / dt * c0 + G * 1) ∧
    ((assembleCoupled e [{ id := 0, decayRate := lam }] (fun _ _ => 0)
        [{ zoneId := 1, speciesId := 0, generationRate := G, removalRate := R }] []
        [[0], [c0]]
        { nodes := [{ id := 0, type := .Ambient, density := 1 },
                    { id := 1, type := .Normal, volume := V, density := 6 / 5 }],
          links := [] } 0 dt).map (fun Ab => (Ab.1 0 0, Ab.2 0)))
      = some (max V 1 / dt
                + (if 0 < lam then lam * max V 1 else 0)
                + (if 0 < R then R * V else 0),
              max V 1 / dt * c0 + G * 1) := by
  constructor
  · norm_num [assembleSpecies, speciesSourceTerms, speciesFlowTerms, speciesDiagonal,
      buildUnknownMap, buildUnknownMapFrom, Node.isKnownPressure,
      Network.getNodeIndexById, getScheduleValue,
      Mat.add, Vec.add, Mat.zero, Vec.zero, ite_apply,
      List.getD_cons_zero, List.getD_cons_succ]
    split_ifs <;> ring
  · norm_num [assembleCoupled, coupledSourceTerms, coupledFlowTerms, coupledDiagonal,
      coupledIdx, buildUnknownMap, buildUnknownMapFrom, Node.isKnownPressure,
      Network.getNodeIndexById, getScheduleValue,
      Mat.add, Vec.add, Mat.zero, Vec.zero, ite_apply,
      List.getD_cons_zero, List.getD_cons_succ, List.range_succ]
    split_ifs <;> ring

/-- C10: when every node is Ambient, Solver::solve returns immediately with
converged, zero iterations and zero residual, empty result vectors, and the
network untouched. -/
theorem c10_no_unknowns_early_return (backend : LinearBackend) (cfg : SolverConfig)
    (net : Network) (h : net.getUnknownCount = 0) :
    solve backend cfg net =
      ({ converged := true, iterations := 0, maxResidual := 0,
         pressures := [], massFlows := [] }, net) := by
  unfold solve
  simp [h]

/-- C10 witness: a single-Ambient-node network with one self-link takes the
early return. -/
theorem c10_no_unknowns_early_return_witness :
    ({ nodes := [{ id := 0, type := .Ambient }],
       links := [{ id := 0, nodeFrom := 0, nodeTo := 0 }] } : Network).getUnknownCount
        = 0 ∧
    solve ⟨fun _ _ _ => none, fun _ _ => 0⟩ {}
      { nodes := [{ id := 0, type := .Ambient }],
        links := [{ id := 0, nodeFrom := 0, nodeTo := 0 }] } =
      ({ converged := true, iterations := 0, maxResidual := 0,
         pressures := [], massFlows := [] },
       { nodes := [{ id := 0, type := .Ambient }],
         links := [{ id := 0, nodeFrom := 0, nodeTo := 0 }] }) := by
  refine ⟨?_, c10_no_unknowns_early_return _ _ _ ?_⟩ <;>
    simp [Network.getUnknownCount, Node.isKnownPressure]

/-- C3: whenever Solver::solve reports convergence (at the source tolerance),
every non-Ambient node of the returned network has net mass imbalance,
computed from the returned link flows, strictly below CONVERGENCE_TOL; the
returned maxResidual equals the largest such imbalance; and (when the early
return is not taken) the returned pressure and flow vectors are read off the
returned network, whose stored flows are exactly the flows re-evaluated at
its own pressures and densities. -/
theorem c3_converged_mass_balance (backend : LinearBackend) (cfg : SolverConfig)
    (net : Network) (res : SolverResult) (netF : Network)
    (htol : cfg.convergenceTol = CONVERGENCE_TOL)
    (hvalid : ∀ lk ∈ net.links,
      lk.nodeFrom < net.nodes.length ∧ lk.nodeTo < net.nodes.length)
    (hsolve : solve backend cfg net = (res, netF))
    (hconv : res.converged = true) :
    (∀ i < netF.nodes.length, ¬(netF.nodes.getD i default).isKnownPressure →
      |netImbalance netF.links i| < CONVERGENCE_TOL) ∧
    res.maxResidual = maxImbalance netF ∧
    (0 < net.getUnknownCount →
      res.pressures = netF.nodes.map Node.pressure ∧
      res.massFlows = netF.links.map Link.massFlow ∧
      computeFlows netF.updateAllDensities = netF) := by
  by_cases hn : net.getUnknownCount = 0
  · simp only [solve] at hsolve
    rw [if_pos hn] at hsolve
    rw [Prod.mk.injEq] at hsolve
    obtain ⟨hres, hnet⟩ := hsolve
    subst hnet
    subst hres
    have hcnt0 : net.nodes.countP (fun nd => !nd.isKnownPressure) = 0 := by
      rw [← getUnknownCount_eq_countP]; exact hn
    have hall : ∀ nd ∈ net.nodes, nd.isKnownPressure := by
      intro nd hnd
      have h := List.countP_eq_zero.mp hcnt0 nd hnd
      simpa using h
    refine ⟨?_, ?_, ?_⟩
    · intro i hi hui
      exfalso
      apply hui
      apply hall
      rw [List.getD_eq_getElem _ _ hi]
      exact List.getElem_mem _
    · show (0 : ℚ) = maxImbalance net
      exact (maxImbalanceFrom_all_known net.links net.nodes 0 0 hall).symm
    · intro hpos
      omega
  · simp only [solve] at hsolve
    rw [if_neg hn] at hsolve
    rcases hNL : newtonLoop backend cfg (buildUnknownMap net.nodes)
        net.getUnknownCount cfg.maxIterations net.updateAllDensities
        TR_INITIAL_RADIUS 0 0 with ⟨netF', iters', maxRes', conv'⟩
    rw [hNL] at hsolve
    dsimp only at hsolve
    rw [Prod.mk.injEq] at hsolve
    obtain ⟨hres, hnetF⟩ := hsolve
    subst hnetF
    subst hres
    dsimp only at hconv
    subst hconv
    obtain ⟨⟨X, hX⟩, hmr, hlt⟩ := newtonLoop_converged_spec backend cfg
      (buildUnknownMap net.nodes) net.getUnknownCount cfg.maxIterations
      net.updateAllDensities TR_INITIAL_RADIUS 0 0 netF' iters' maxRes' hNL
    have hshape := newtonLoop_shape backend cfg (buildUnknownMap net.nodes)
      net.getUnknownCount cfg.maxIterations net.updateAllDensities
      TR_INITIAL_RADIUS 0 0
    simp only [hNL] at hshape
    have htypes : netF'.nodes.map Node.type = net.nodes.map Node.type :=
      hshape.1.trans (updateAllDensities_types net)
    have hends : netF'.links.map (fun lk => (lk.nodeFrom, lk.nodeTo)) =
        net.links.map (fun lk => (lk.nodeFrom, lk.nodeTo)) := hshape.2
    have hlen : netF'.nodes.length = net.nodes.length := by
      have h := congrArg List.length htypes
      simpa using h
    have hcount : netF'.nodes.countP (fun nd => !nd.isKnownPressure) =
        net.nodes.countP (fun nd => !nd.isKnownPressure) :=
      countP_unknown_congr htypes
    have hnc : net.getUnknownCount =
        net.nodes.countP (fun nd => !nd.isKnownPressure) :=
      getUnknownCount_eq_countP net
    have humap : buildUnknownMap netF'.nodes = buildUnknownMap net.nodes :=
      buildUnknownMapFrom_congr htypes 0
    have hvalidF : ∀ lk ∈ netF'.links,
        lk.nodeFrom < netF'.nodes.length ∧ lk.nodeTo < netF'.nodes.length := by
      intro lk hlk
      have hmem : (lk.nodeFrom, lk.nodeTo) ∈
          net.links.map (fun lk => (lk.nodeFrom, lk.nodeTo)) := by
        rw [← hends]
        exact List.mem_map_of_mem _ hlk
      obtain ⟨lk', hlk', heq⟩ := List.mem_map.mp hmem
      rw [Prod.mk.injEq] at heq
      obtain ⟨e1, e2⟩ := heq
      rw [hlen, ← e1, ← e2]
      exact hvalid lk' hlk'
    refine ⟨?_, ?_, ?_⟩
    · intro i hi hui
      have hA := @assembleResidual_eq_imbalance netF'.nodes netF'.links i hi hui hvalidF
      rw [humap] at hA
      have hvnn : (0 : ℤ) ≤ (buildUnknownMap net.nodes).getD i (-1) := by
        rw [← humap]; exact unknownMap_nonneg hi hui
      have hvlt : (buildUnknownMap net.nodes).getD i (-1) <
          (net.nodes.countP (fun nd => !nd.isKnownPressure) : ℤ) := by
        rw [← humap, ← hcount]; exact unknownMap_lt_count hi hui
      have hlt' : ((buildUnknownMap net.nodes).getD i (-1)).toNat <
          net.getUnknownCount := by
        rw [hnc]; omega
      calc |netImbalance netF'.links i|
          = |assembleResidual netF'.links (buildUnknownMap net.nodes)
              (((buildUnknownMap net.nodes).getD i (-1)).toNat)| := by rw [hA]
        _ ≤ maxResidualOf (assembleResidual netF'.links (buildUnknownMap net.nodes))
              net.getUnknownCount := by
            unfold maxResidualOf
            exact le_foldlMax_of_mem
              (List.mem_map_of_mem _ (List.mem_range.mpr hlt')) 0
        _ = maxRes' := hmr.symm
        _ < cfg.convergenceTol := hlt
        _ = CONVERGENCE_TOL := htol
    · show maxRes' = maxImbalance netF'
      rw [hmr]
      apply le_antisymm
      · unfold maxResidualOf
        rcases foldlMax_eq_init_or_mem
            ((List.range net.getUnknownCount).map
              (fun e => |assembleResidual netF'.links (buildUnknownMap net.nodes) e|))
            0 with h0 | hmem
        · rw [h0]
          exact maxImbalanceFrom_init_le netF'.links netF'.nodes 0 0
        · obtain ⟨e, he, heq⟩ := List.mem_map.mp hmem
          rw [← heq]
          have he' : e < netF'.nodes.countP (fun nd => !nd.isKnownPressure) := by
            rw [hcount, ← hnc]; exact List.mem_range.mp he
          obtain ⟨j, hj, huj, hvj⟩ := unknownMap_surjective netF'.nodes 0 e he'
          have hvj' : (buildUnknownMap net.nodes).getD j (-1) = (e : ℤ) := by
            rw [← humap]
            exact hvj.trans (zero_add _)
          have hAj := @assembleResidual_eq_imbalance netF'.nodes netF'.links j hj huj hvalidF
          rw [humap, hvj'] at hAj
          have htn : ((e : ℤ)).toNat = e := Int.toNat_natCast e
          rw [htn] at hAj
          rw [hAj]
          have hle := le_maxImbalanceFrom netF'.links netF'.nodes 0 0 j hj huj
          rw [zero_add] at hle
          exact hle
      · rcases maxImbalanceFrom_eq_init_or netF'.links netF'.nodes 0 0
            with h0 | ⟨k, hk, huk, hvk⟩
        · have h0' : maxImbalance netF' = 0 := h0
          rw [h0']
          unfold maxResidualOf
          exact foldlMax_init_le _ 0
        · have hvk' : maxImbalance netF' = |netImbalance netF'.links (0 + k)| := hvk
          rw [zero_add] at hvk'
          rw [hvk']
          have hAk := @assembleResidual_eq_imbalance netF'.nodes netF'.links k hk huk hvalidF
          rw [humap] at hAk
          rw [← hAk]
          have hknn : (0 : ℤ) ≤ (buildUnknownMap net.nodes).getD k (-1) := by
            rw [← humap]; exact unknownMap_nonneg hk huk
          have hklt : (buildUnknownMap net.nodes).getD k (-1) <
              (net.nodes.countP (fun nd => !nd.isKnownPressure) : ℤ) := by
            rw [← humap, ← hcount]; exact unknownMap_lt_count hk huk
          have hkn : ((buildUnknownMap net.nodes).getD k (-1)).toNat <
              net.getUnknownCount := by
            rw [hnc]; omega
          unfold maxResidualOf
          exact le_foldlMax_of_mem
            (List.mem_map_of_mem _ (List.mem_range.mpr hkn)) 0
    · intro _
      refine ⟨rfl, rfl, ?_⟩
      rw [hX]
      exact computeFlows_updateAll_fixpoint X

/-- C3 witness: on a one-Normal-node, no-link network the solver converges in
one iteration; the mass-balance theorem applies and the reported residual is
the largest imbalance. -/
theorem c3_converged_mass_balance_witness :
    solve ⟨fun _ _ _ => none, fun _ _ => 0⟩ {} { nodes := [{}], links := [] } =
      ({ converged := true, iterations := 1, maxResidual := 0,
         pressures := [0], massFlows := [] },
       { nodes := [{ density := P_ATM / (R_AIR * T_REF) }], links := [] }) ∧
    (0 : ℚ) = maxImbalance
      { nodes := [{ density := P_ATM / (R_AIR * T_REF) }], links := [] } := by
  have e1 : ({ nodes := [{}], links := [] } : Network).getUnknownCount = 1 := by
    simp [Network.getUnknownCount, Node.isKnownPressure]
  have e2 : buildUnknownMap ({ nodes := [{}], links := [] } : Network).nodes
      = [0] := by
    simp [buildUnknownMap, buildUnknownMapFrom, Node.isKnownPressure]
  have e3 : maxResidualOf
      (assembleResidual
        (computeFlows
          ((({ nodes := [{}], links := [] } : Network).updateAllDensities).updateAllDensities)).links
        [0]) 1 < ({} : SolverConfig).convergenceTol := by
    norm_num [computeFlows, Network.updateAllDensities, Node.updateDensity,
      Node.updateDensityAt, assembleResidual, maxResidualOf, Vec.zero,
      List.range_succ, CONVERGENCE_TOL]
  have hstep : newtonLoop ⟨fun _ _ _ => none, fun _ _ => 0⟩ ({} : SolverConfig)
      [0] 1 MAX_ITERATIONS
      (({ nodes := [{}], links := [] } : Network).updateAllDensities)
      TR_INITIAL_RADIUS 0 0 =
      (computeFlows
         ((({ nodes := [{}], links := [] } : Network).updateAllDensities).updateAllDensities),
       1,
       maxResidualOf
         (assembleResidual
           (computeFlows
             ((({ nodes := [{}], links := [] } : Network).updateAllDensities).updateAllDensities)).links
           [0]) 1,
       true) :=
    newtonLoop_first_step_converged ⟨fun _ _ _ => none, fun _ _ => 0⟩
      ({} : SolverConfig) [0] 1 99
      (({ nodes := [{}], links := [] } : Network).updateAllDensities)
      TR_INITIAL_RADIUS 0 0 e3
  have hsolve : solve ⟨fun _ _ _ => none, fun _ _ => 0⟩ {}
      { nodes := [{}], links := [] } =
      ({ converged := true, iterations := 1, maxResidual := 0,
         pressures := [0], massFlows := [] },
       { nodes := [{ density := P_ATM / (R_AIR * T_REF) }], links := [] }) := by
    simp only [solve]
    rw [e1, e2, if_neg (by norm_num : ¬(1 : ℕ) = 0), hstep]
    norm_num [computeFlows, Network.updateAllDensities, Node.updateDensity,
      Node.updateDensityAt, T_REF, maxResidualOf, assembleResidual, Vec.zero,
      List.range_succ, P_ATM, R_AIR]
  exact ⟨hsolve,
    (c3_converged_mass_balance _ _ _ _ _ rfl (by simp) hsolve rfl).2.1⟩

/-- C9: the transient driver never aborts on a non-converged airflow solve.
First conjunct: with a positive time step and a progress callback that never
cancels, run reports completed = true for every environment — in particular
for one whose airflow solve never converges, since no control path of the
loop tests the convergence flag.  Second conjunct: one step of the loop
(species present, no density feedback, recording due, cancelled right after)
hands the solver's returned network — carrying its link mass flows — to the
contaminant step and records the solver's result, converged or not, in the
snapshot; completed = false arises here only from the progress callback. -/
theorem c9_run_defies_nonconvergence {α : Type} (env : DriverEnv α)
    (species : List Species) (hc ho : Bool) (progress : ℚ → ℚ → Bool)
    (cfg : TransientConfig) (hdt : 0 < cfg.timeStep) :
    ((∀ t1 t2, progress t1 t2 = true) →
      ∀ (net : Network) (a0 : α),
        (run env species hc ho progress cfg net a0).completed = true) ∧
    (∀ (t nextOutput : ℚ) (net : Network) (a : α) (history : List Snapshot)
        (fuel : ℕ),
      species.isEmpty = false →
      hasNonTraceSpecies species = false →
      t < cfg.endTime - EPS_RUN →
      nextOutput - EPS_RUN ≤ t + min cfg.timeStep (cfg.endTime - t) →
      progress (t + min cfg.timeStep (cfg.endTime - t)) cfg.endTime = false →
      runLoop env species false ho progress cfg (fuel + 1) t nextOutput net a
          history =
        { completed := false,
          history := history ++
            [{ t := t + min cfg.timeStep (cfg.endTime - t),
               air := (env.solve net).1,
               cont := (env.contStep a (env.solve net).2 t
                 (min cfg.timeStep (cfg.endTime - t))).1 }] }) := by
  constructor
  · intro hprog net a0
    simp only [run]
    exact runLoop_completes env species hc ho progress cfg hdt hprog _ _ _ _ _ _
      (Nat.lt_succ_self _)
  · intro t nextOutput net a history fuel hspec hnt hT hrec hstop
    simp only [runLoop]
    rw [if_pos hT]
    rw [if_pos (Or.inl hrec)]
    simp only [hspec, hnt, hstop]
    norm_num
    intro h
    linarith

/-- Helper: a square root evaluates to c once the radicand is written as
c squared. -/
theorem sqrt_eval {x c : ℝ} (hc : 0 ≤ c) (hx : x = c ^ 2) : Real.sqrt x = c := by
  rw [hx, Real.sqrt_sq hc]

/-- C7 counterexample: with rtol = atol = 0 (scale floored at 1e-30),
dtMin = 1e-6 and the rhs y' = t, the sub-step at t = 0 with dt = dtMin has
Richardson error 2.5e17, far above 1 — yet it is ACCEPTED, because rejection
also requires dt > dtMin * 1.01.  The claim says err >= 1 always rejects. -/
theorem c7_substep_accepts_error_above_one :
    (1 : ℝ) < substepError { rtol := 0, atol := 0, dtMin := 1 / 10 ^ 6 }
      (fun s _ => [s]) 1 0 (1 / 10 ^ 6) [0] ∧
    substepError { rtol := 0, atol := 0, dtMin := 1 / 10 ^ 6 }
      (fun s _ => [s]) 1 0 (1 / 10 ^ 6) [0] = 250000000000000000 ∧
    substep { rtol := 0, atol := 0, dtMin := 1 / 10 ^ 6 }
      (fun s _ => [s]) 1 0 (1 / 10 ^ 6) [0] =
      SubstepOutcome.accept (1 / 10 ^ 6) [1 / 2000000000000] := by
  have hFull : stepBDF1 (fun s _ => [s]) 1 0 ((1 : ℝ) / 10 ^ 6) [0] = [0] := by
    have h0 := stepBDF1_quick (fun s _ => [s]) 0 ((1 : ℝ) / 10 ^ 6) 0 (by
      rw [abs_lt]
      norm_num [List.getD_cons_zero])
    rw [h0]
    norm_num [List.getD_cons_zero]
  have hHalf : stepBDF1 (fun s _ => [s]) 1 0 ((1 : ℝ) / 10 ^ 6 * (1 / 2)) [0]
      = [0] := by
    have h0 := stepBDF1_quick (fun s _ => [s]) 0 ((1 : ℝ) / 10 ^ 6 * (1 / 2)) 0 (by
      rw [abs_lt]
      norm_num [List.getD_cons_zero])
    rw [h0]
    norm_num [List.getD_cons_zero]
  have hDouble : stepBDF1 (fun s _ => [s]) 1 ((0 : ℝ) + (1 : ℝ) / 10 ^ 6 * (1 / 2))
      ((1 : ℝ) / 10 ^ 6 * (1 / 2)) [0] = [1 / 4000000000000] := by
    have h0 := stepBDF1_quick (fun s _ => [s]) ((0 : ℝ) + (1 : ℝ) / 10 ^ 6 * (1 / 2))
      ((1 : ℝ) / 10 ^ 6 * (1 / 2)) 0 (by
      rw [abs_lt]
      norm_num [List.getD_cons_zero])
    rw [h0]
    norm_num [List.getD_cons_zero]
  have heval : estimateError
      ({ rtol := 0, atol := 0, dtMin := 1 / 10 ^ 6 } : AIConfig) 1
      [0] [0] [1 / 4000000000000] = 250000000000000000 := by
    simp only [estimateError, List.range_succ, List.range_zero, List.nil_append,
      List.map_cons, List.map_nil, List.sum_cons, List.sum_nil,
      List.getD_cons_zero]
    exact sqrt_eval (by norm_num) (by norm_num)
  have herr : substepError { rtol := 0, atol := 0, dtMin := 1 / 10 ^ 6 }
      (fun s _ => [s]) 1 0 (1 / 10 ^ 6) [0] = 250000000000000000 := by
    simp only [substepError]
    rw [hFull, hHalf, hDouble]
    exact heval
  have hrpow : ((1 : ℝ) / 250000000000000000) ^ ((1 : ℝ) / (((1 : ℕ) : ℝ) + 1))
      = 1 / 500000000 := by
    rw [show (((1 : ℕ) : ℝ) + 1) = 2 from by norm_num]
    rw [show (1 : ℝ) / 250000000000000000 = ((1 : ℝ) / 500000000) ^ (2 : ℕ) from by
      norm_num]
    rw [← Real.rpow_natCast ((1 : ℝ) / 500000000) 2]
    rw [← Real.rpow_mul (by norm_num : (0 : ℝ) ≤ (1 : ℝ) / 500000000)]
    norm_num
  have hnew : computeNewDt ({ rtol := 0, atol := 0, dtMin := 1 / 10 ^ 6 } : AIConfig)
      (1 / 10 ^ 6) 250000000000000000 1 = 1 / 10 ^ 6 := by
    simp only [computeNewDt]
    rw [if_neg (by norm_num : ¬(250000000000000000 : ℝ) < 1 / 10 ^ 30)]
    rw [hrpow]
    norm_num [min_def, max_def]
  refine ⟨by rw [herr]; norm_num, herr, ?_⟩
  simp only [substep]
  rw [hFull, hHalf, hDouble, heval, hnew]
  rw [if_neg (fun hcc => absurd hcc.2 (by norm_num))]
  norm_num [List.range_succ, List.getD_cons_zero]

/-- Splitting DP_MIN^(n-1) * DP_MIN into DP_MIN^n. -/
theorem dp_pow_split (nn : ℝ) : DP_MIN_R ^ (nn - 1) * DP_MIN_R = DP_MIN_R ^ nn := by
  have h := Real.rpow_add (by norm_num [DP_MIN_R] : (0 : ℝ) < DP_MIN_R) (nn - 1) 1
  rw [Real.rpow_one] at h
  rw [show nn - 1 + 1 = nn from by ring] at h
  exact h.symm

/-- The power-law linearization gap at DP_MIN: for a combined coefficient
M = density times flow coefficient at most 3/200 and an exponent in
[1/2, 1], the flow at 1.001 * DP_MIN differs from the linearized flow at
0.999 * DP_MIN by at most 1e-6. -/
theorem powerGap_bound (M nn : ℝ) (hM0 : 0 ≤ M) (hM : M ≤ 3 / 200)
    (hn : 1 / 2 ≤ nn) (hn1 : nn ≤ 1) :
    |M * (1001 / 1000 * DP_MIN_R) ^ nn - M * (999 / 1000) * DP_MIN_R ^ nn|
      ≤ 1 / 10 ^ 6 := by
  have hd0 : (0 : ℝ) < DP_MIN_R := by norm_num [DP_MIN_R]
  have hsplit : ((1001 / 1000 : ℝ) * DP_MIN_R) ^ nn
      = (1001 / 1000 : ℝ) ^ nn * DP_MIN_R ^ nn :=
    Real.mul_rpow (by norm_num) (le_of_lt hd0)
  rw [hsplit]
  rw [show M * ((1001 / 1000 : ℝ) ^ nn * DP_MIN_R ^ nn)
      - M * (999 / 1000) * DP_MIN_R ^ nn
      = M * DP_MIN_R ^ nn * ((1001 / 1000 : ℝ) ^ nn - 999 / 1000) from by ring]
  have hb1 : (1 : ℝ) ≤ (1001 / 1000 : ℝ) ^ nn := by
    have h := Real.rpow_le_rpow_of_exponent_le
      (by norm_num : (1 : ℝ) ≤ 1001 / 1000) (by linarith : (0 : ℝ) ≤ nn)
    rwa [Real.rpow_zero] at h
  have hb2 : (1001 / 1000 : ℝ) ^ nn ≤ 1001 / 1000 := by
    have h := Real.rpow_le_rpow_of_exponent_le
      (by norm_num : (1 : ℝ) ≤ 1001 / 1000) hn1
    rwa [Real.rpow_one] at h
  have hx0 : (0 : ℝ) ≤ DP_MIN_R ^ nn := Real.rpow_nonneg (le_of_lt hd0) nn
  have hx1 : DP_MIN_R ^ nn ≤ 317 / 10000 := by
    have h1 : DP_MIN_R ^ nn ≤ DP_MIN_R ^ ((1 : ℝ) / 2) :=
      Real.rpow_le_rpow_of_exponent_ge hd0 (by norm_num [DP_MIN_R]) hn
    have h3 : Real.sqrt DP_MIN_R ≤ 317 / 10000 := by
      rw [show (317 / 10000 : ℝ) = Real.sqrt ((317 / 10000) ^ 2) from
        (Real.sqrt_sq (by norm_num)).symm]
      exact Real.sqrt_le_sqrt (by norm_num [DP_MIN_R])
    calc DP_MIN_R ^ nn ≤ DP_MIN_R ^ ((1 : ℝ) / 2) := h1
      _ = Real.sqrt DP_MIN_R := (Real.sqrt_eq_rpow _).symm
      _ ≤ 317 / 10000 := h3
  rw [abs_of_nonneg (by
    apply mul_nonneg (mul_nonneg hM0 hx0)
    linarith)]
  calc M * DP_MIN_R ^ nn * ((1001 / 1000 : ℝ) ^ nn - 999 / 1000)
      ≤ 3 / 200 * (317 / 10000) * (2 / 1000) := by
        apply mul_le_mul (mul_le_mul hM hx1 hx0 (by norm_num)) (by linarith)
          (by linarith) (by norm_num)
    _ ≤ 1 / 10 ^ 6 := by norm_num

/-- The two-way-flow linearization gap at DP_MIN for K = Cd * area at most
1/100, evaluated at the reference density 6/5. -/
theorem twowayGap_bound (K : ℝ) (hK0 : 0 ≤ K) (hK : K ≤ 1 / 100) :
    |6 / 5 * (K * Real.sqrt (2 * (1001 / 1000 * DP_MIN_R) / (6 / 5))) -
     6 / 5 * (K * Real.sqrt (2 * DP_MIN_R / (6 / 5))) * (999 / 1000)|
      ≤ 1 / 10 ^ 6 := by
  have hsplit : Real.sqrt (2 * (1001 / 1000 * DP_MIN_R) / (6 / 5))
      = Real.sqrt (1001 / 1000) * Real.sqrt (2 * DP_MIN_R / (6 / 5)) := by
    rw [show 2 * (1001 / 1000 * DP_MIN_R) / (6 / 5)
        = (1001 / 1000) * (2 * DP_MIN_R / (6 / 5)) from by ring]
    exact Real.sqrt_mul (by norm_num) _
  rw [hsplit]
  have hS0 : 0 ≤ Real.sqrt (2 * DP_MIN_R / (6 / 5)) := Real.sqrt_nonneg _
  have hSle : Real.sqrt (2 * DP_MIN_R / (6 / 5)) ≤ 409 / 10000 := by
    rw [show (409 / 10000 : ℝ) = Real.sqrt ((409 / 10000) ^ 2) from
      (Real.sqrt_sq (by norm_num)).symm]
    exact Real.sqrt_le_sqrt (by norm_num [DP_MIN_R])
  have hq1 : (1 : ℝ) ≤ Real.sqrt (1001 / 1000) := by
    rw [show (1 : ℝ) = Real.sqrt 1 from Real.sqrt_one.symm]
    exact Real.sqrt_le_sqrt (by norm_num)
  have hqle : Real.sqrt (1001 / 1000) ≤ 10005 / 10000 := by
    rw [show (10005 / 10000 : ℝ) = Real.sqrt ((10005 / 10000) ^ 2) from
      (Real.sqrt_sq (by norm_num)).symm]
    exact Real.sqrt_le_sqrt (by norm_num)
  rw [show 6 / 5 * (K * (Real.sqrt (1001 / 1000) *
        Real.sqrt (2 * DP_MIN_R / (6 / 5)))) -
      6 / 5 * (K * Real.sqrt (2 * DP_MIN_R / (6 / 5))) * (999 / 1000)
      = 6 / 5 * K * Real.sqrt (2 * DP_MIN_R / (6 / 5)) *
        (Real.sqrt (1001 / 1000) - 999 / 1000) from by ring]
  rw [abs_of_nonneg (by
    apply mul_nonneg
    · exact mul_nonneg (mul_nonneg (by norm_num) hK0) hS0
    · linarith)]
  calc 6 / 5 * K * Real.sqrt (2 * DP_MIN_R / (6 / 5)) *
        (Real.sqrt (1001 / 1000) - 999 / 1000)
      ≤ 6 / 5 * (1 / 100) * (409 / 10000) * (15 / 10000) := by
        apply mul_le_mul
        · apply mul_le_mul (mul_le_mul_of_nonneg_left hK (by norm_num)) hSle hS0
          norm_num
        · linarith
        · linarith
        · norm_num
    _ ≤ 1 / 10 ^ 6 := by norm_num

/-- C7 amended: a sub-step is rejected iff the Richardson error exceeds 1 AND
dt exceeds dtMin * 1.01 (at or near dtMin, large-error steps are accepted);
every accepted state is the extrapolation 2 * yDouble - yFull; and every
rejected sub-step retries with a strictly smaller dt. -/
theorem c7_substep_acceptance_amended (cfg : AIConfig) (rhs : RhsFunc)
    (n : ℕ) (t dt : ℝ) (y : List ℝ)
    (hdtMin : 0 < cfg.dtMin) (hsf0 : 0 ≤ cfg.safetyFactor)
    (hsf1 : cfg.safetyFactor < 1) :
    ((∃ d, substep cfg rhs n t dt y = SubstepOutcome.reject d) ↔
      (1 < substepError cfg rhs n t dt y ∧ cfg.dtMin * (101 / 100) < dt)) ∧
    (∀ s ySol, substep cfg rhs n t dt y = SubstepOutcome.accept s ySol →
      ySol = (List.range n).map (fun i =>
        2 * (stepBDF1 rhs n (t + dt * (1 / 2)) (dt * (1 / 2))
              (stepBDF1 rhs n t (dt * (1 / 2)) y)).getD i 0
          - (stepBDF1 rhs n t dt y).getD i 0)) ∧
    (∀ d, substep cfg rhs n t dt y = SubstepOutcome.reject d → d < dt) := by
  have hE : substepError cfg rhs n t dt y
      = estimateError cfg n y (stepBDF1 rhs n t dt y)
          (stepBDF1 rhs n (t + dt * (1 / 2)) (dt * (1 / 2))
            (stepBDF1 rhs n t (dt * (1 / 2)) y)) := rfl
  by_cases hc : 1 < substepError cfg rhs n t dt y ∧ cfg.dtMin * (101 / 100) < dt
  · have hc' := hc
    rw [hE] at hc'
    have hsub : substep cfg rhs n t dt y = SubstepOutcome.reject
        (max (computeNewDt cfg dt (substepError cfg rhs n t dt y) 1)
          cfg.dtMin) := by
      simp only [substep]
      rw [if_pos hc', hE]
    obtain ⟨h1, h2⟩ := hc
    have hdtpos : 0 < dt := lt_trans (mul_pos hdtMin (by norm_num)) h2
    refine ⟨⟨fun _ => ⟨h1, h2⟩, fun _ => ⟨_, hsub⟩⟩, ?_, ?_⟩
    · intro s ySol h
      rw [hsub] at h
      exact absurd h (by simp)
    · intro d h
      rw [hsub] at h
      injection h with hd
      rw [← hd]
      have hdnew : computeNewDt cfg dt (substepError cfg rhs n t dt y) 1 < dt := by
        simp only [computeNewDt]
        rw [if_neg (by intro hlt; linarith)]
        have hEpos : 0 < substepError cfg rhs n t dt y := lt_trans one_pos h1
        have hx1 : (1 : ℝ) / substepError cfg rhs n t dt y ≤ 1 := by
          rw [div_le_one hEpos]; linarith
        have hx0 : (0 : ℝ) ≤ 1 / substepError cfg rhs n t dt y := by positivity
        have hrp : (1 / substepError cfg rhs n t dt y) ^
            ((1 : ℝ) / (((1 : ℕ) : ℝ) + 1)) ≤ 1 :=
          Real.rpow_le_one hx0 hx1 (by norm_num)
        have hf0 : cfg.safetyFactor * (1 / substepError cfg rhs n t dt y) ^
            ((1 : ℝ) / (((1 : ℕ) : ℝ) + 1)) < 1 :=
          lt_of_le_of_lt
            (le_trans (mul_le_mul_of_nonneg_left hrp hsf0) (le_of_eq (mul_one _)))
            hsf1
        have hfac : max (1 / 5 : ℝ)
            (min (cfg.safetyFactor * (1 / substepError cfg rhs n t dt y) ^
              ((1 : ℝ) / (((1 : ℕ) : ℝ) + 1))) 5) < 1 :=
          max_lt (by norm_num) (lt_of_le_of_lt (min_le_left _ _) hf0)
        apply max_lt
        · linarith
        · exact lt_of_le_of_lt (min_le_left _ _)
            (lt_of_lt_of_le (mul_lt_mul_of_pos_left hfac hdtpos)
              (le_of_eq (mul_one dt)))
      exact max_lt hdnew (by linarith)
  · have hc' : ¬(1 < estimateError cfg n y (stepBDF1 rhs n t dt y)
        (stepBDF1 rhs n (t + dt * (1 / 2)) (dt * (1 / 2))
          (stepBDF1 rhs n t (dt * (1 / 2)) y)) ∧
        cfg.dtMin * (101 / 100) < dt) := by
      rw [← hE]
      exact hc
    have hsub : substep cfg rhs n t dt y = SubstepOutcome.accept
        (computeNewDt cfg dt (substepError cfg rhs n t dt y) 1)
        ((List.range n).map (fun i =>
          2 * (stepBDF1 rhs n (t + dt * (1 / 2)) (dt * (1 / 2))
                (stepBDF1 rhs n t (dt * (1 / 2)) y)).getD i 0
            - (stepBDF1 rhs n t dt y).getD i 0)) := by
      simp only [substep]
      rw [if_neg hc', hE]
    refine ⟨⟨?_, fun h => absurd h hc⟩, ?_, ?_⟩
    · rintro ⟨d, hd⟩
      rw [hsub] at hd
      exact absurd hd (by simp)
    · intro s ySol h
      rw [hsub] at h
      injection h with hs hy
      exact hy.symm
    · intro d h
      rw [hsub] at h
      exact absurd h (by simp)

/-- C7 witness: at the default configuration the amended acceptance
characterization holds on a concrete sub-step. -/
theorem c7_substep_acceptance_amended_witness :
    (0 : ℝ) < ({} : AIConfig).dtMin ∧
    (0 : ℝ) ≤ ({} : AIConfig).safetyFactor ∧
    ({} : AIConfig).safetyFactor < 1 ∧
    ((∃ d, substep {} (fun _ _ => [0]) 0 0 1 [] = SubstepOutcome.reject d) ↔
      (1 < substepError {} (fun _ _ => [0]) 0 0 1 [] ∧
        ({} : AIConfig).dtMin * (101 / 100) < 1)) :=
  ⟨by norm_num, by norm_num, by norm_num,
   (c7_substep_acceptance_amended {} (fun _ _ => [0]) 0 0 1 []
     (by norm_num) (by norm_num) (by norm_num)).1⟩

/-- C6 counterexample: a valid PowerLawOrifice with C = 1, n = 1 at density
6/5 has |calculate(1.001 * DP_MIN) - calculate(0.999 * DP_MIN)| = 2.4e-6,
exceeding the claimed universal 1e-6 tolerance: the linearization gap scales
with density times flow coefficient. -/
theorem c6_powerlaw_gap_exceeds_bound :
    PowerLawOrifice.valid ⟨1, 1⟩ ∧ (0 : ℝ) < 6 / 5 ∧
    |(PowerLawOrifice.calculate ⟨1, 1⟩ (1001 / 1000 * DP_MIN_R) (6 / 5)).1 -
     (PowerLawOrifice.calculate ⟨1, 1⟩ (999 / 1000 * DP_MIN_R) (6 / 5)).1|
      = 24 / 10 ^ 7 ∧
    (1 : ℝ) / 10 ^ 6 < 24 / 10 ^ 7 := by
  refine ⟨⟨by norm_num, by norm_num, by norm_num⟩, by norm_num, ?_, by norm_num⟩
  have h1 : (PowerLawOrifice.calculate ⟨1, 1⟩ (1001 / 1000 * DP_MIN_R) (6 / 5)).1
      = 6 / 5 * (1 * (1001 / 1000 * DP_MIN_R) ^ (1 : ℝ)) * 1 := by
    simp only [PowerLawOrifice.calculate]
    rw [abs_of_nonneg (by norm_num [DP_MIN_R] :
      (0 : ℝ) ≤ 1001 / 1000 * DP_MIN_R)]
    rw [if_neg (by norm_num [DP_MIN_R]),
      if_pos (by norm_num [DP_MIN_R] : (0 : ℝ) ≤ 1001 / 1000 * DP_MIN_R)]
  have h2 : (PowerLawOrifice.calculate ⟨1, 1⟩ (999 / 1000 * DP_MIN_R) (6 / 5)).1
      = 6 / 5 * (1 * DP_MIN_R ^ ((1 : ℝ) - 1)) * (999 / 1000 * DP_MIN_R) := by
    simp only [PowerLawOrifice.calculate, PowerLawOrifice.linearSlope]
    rw [abs_of_nonneg (by norm_num [DP_MIN_R] :
      (0 : ℝ) ≤ 999 / 1000 * DP_MIN_R)]
    rw [if_pos (by norm_num [DP_MIN_R])]
  rw [h1, h2, Real.rpow_one, show ((1 : ℝ) - 1) = 0 from by norm_num,
    Real.rpow_zero]
  rw [abs_of_nonneg (by norm_num [DP_MIN_R])]
  norm_num [DP_MIN_R]

set_option maxHeartbeats 1000000 in
/-- C6 amended: the linearization gap at DP_MIN is bounded by 1e-6 only for
small enough coefficients.  PowerLawOrifice: whenever density * C <= 3/200.
Damper (open, effective coefficient above the 1e-15 floor) and Filter at the
reference density 6/5: whenever 6/5 * C_eff <= 3/200 (their linear branch
bakes the reference density 1.2 into the stored slope).  TwoWayFlow at
density 6/5: whenever Cd * area <= 1/100.  Both signs are covered. -/
theorem c6_linearization_gap_amended :
    (∀ (e : PowerLawOrifice) (ρ : ℝ), e.valid → 0 < ρ → ρ * e.C ≤ 3 / 200 →
      |(e.calculate (1001 / 1000 * DP_MIN_R) ρ).1 -
       (e.calculate (999 / 1000 * DP_MIN_R) ρ).1| ≤ 1 / 10 ^ 6 ∧
      |(e.calculate (-(1001 / 1000 * DP_MIN_R)) ρ).1 -
       (e.calculate (-(999 / 1000 * DP_MIN_R)) ρ).1| ≤ 1 / 10 ^ 6) ∧
    (∀ d : Damper, d.valid → 1 / 10 ^ 15 < d.Ceff → 6 / 5 * d.Ceff ≤ 3 / 200 →
      |(d.calculate (1001 / 1000 * DP_MIN_R) (6 / 5)).1 -
       (d.calculate (999 / 1000 * DP_MIN_R) (6 / 5)).1| ≤ 1 / 10 ^ 6 ∧
      |(d.calculate (-(1001 / 1000 * DP_MIN_R)) (6 / 5)).1 -
       (d.calculate (-(999 / 1000 * DP_MIN_R)) (6 / 5)).1| ≤ 1 / 10 ^ 6) ∧
    (∀ f : Filter, f.valid → 6 / 5 * f.C ≤ 3 / 200 →
      |(f.calculate (1001 / 1000 * DP_MIN_R) (6 / 5)).1 -
       (f.calculate (999 / 1000 * DP_MIN_R) (6 / 5)).1| ≤ 1 / 10 ^ 6 ∧
      |(f.calculate (-(1001 / 1000 * DP_MIN_R)) (6 / 5)).1 -
       (f.calculate (-(999 / 1000 * DP_MIN_R)) (6 / 5)).1| ≤ 1 / 10 ^ 6) ∧
    (∀ w : TwoWayFlow, w.valid → w.Cd * w.area ≤ 1 / 100 →
      |(w.calculate (1001 / 1000 * DP_MIN_R) (6 / 5)).1 -
       (w.calculate (999 / 1000 * DP_MIN_R) (6 / 5)).1| ≤ 1 / 10 ^ 6 ∧
      |(w.calculate (-(1001 / 1000 * DP_MIN_R)) (6 / 5)).1 -
       (w.calculate (-(999 / 1000 * DP_MIN_R)) (6 / 5)).1| ≤ 1 / 10 ^ 6) := by
  have habove : (0 : ℝ) ≤ 1001 / 1000 * DP_MIN_R := by norm_num [DP_MIN_R]
  have hbelow : (0 : ℝ) ≤ 999 / 1000 * DP_MIN_R := by norm_num [DP_MIN_R]
  have hnlt : ¬(1001 / 1000 * DP_MIN_R < DP_MIN_R) := by norm_num [DP_MIN_R]
  have hlt : 999 / 1000 * DP_MIN_R < DP_MIN_R := by norm_num [DP_MIN_R]
  have hnneg : ¬((0 : ℝ) ≤ -(1001 / 1000 * DP_MIN_R)) := by norm_num [DP_MIN_R]
  have hdne : (DP_MIN_R : ℝ) ≠ 0 := by norm_num [DP_MIN_R]
  refine ⟨?_, ?_, ?_, ?_⟩
  · intro e ρ hv hρ hM
    obtain ⟨hC, hn, hn1⟩ := hv
    have hM0 : 0 ≤ ρ * e.C := mul_nonneg (le_of_lt hρ) (le_of_lt hC)
    constructor
    · have h1 : (e.calculate (1001 / 1000 * DP_MIN_R) ρ).1
          = ρ * (e.C * (1001 / 1000 * DP_MIN_R) ^ e.n) * 1 := by
        simp only [PowerLawOrifice.calculate]
        rw [abs_of_nonneg habove, if_neg hnlt, if_pos habove]
      have h2 : (e.calculate (999 / 1000 * DP_MIN_R) ρ).1
          = ρ * (e.C * DP_MIN_R ^ (e.n - 1)) * (999 / 1000 * DP_MIN_R) := by
        simp only [PowerLawOrifice.calculate, PowerLawOrifice.linearSlope]
        rw [abs_of_nonneg hbelow, if_pos hlt]
      rw [h1, h2,
        show ρ * (e.C * (1001 / 1000 * DP_MIN_R) ^ e.n) * 1 -
            ρ * (e.C * DP_MIN_R ^ (e.n - 1)) * (999 / 1000 * DP_MIN_R)
          = ρ * e.C * (1001 / 1000 * DP_MIN_R) ^ e.n -
            ρ * e.C * (999 / 1000) * (DP_MIN_R ^ (e.n - 1) * DP_MIN_R) from by
          ring, dp_pow_split e.n]
      exact powerGap_bound (ρ * e.C) e.n hM0 hM hn hn1
    · have h1 : (e.calculate (-(1001 / 1000 * DP_MIN_R)) ρ).1
          = ρ * (e.C * (1001 / 1000 * DP_MIN_R) ^ e.n) * (-1) := by
        simp only [PowerLawOrifice.calculate]
        rw [abs_neg, abs_of_nonneg habove,
          if_neg hnlt, if_neg hnneg]
      have h2 : (e.calculate (-(999 / 1000 * DP_MIN_R)) ρ).1
          = ρ * (e.C * DP_MIN_R ^ (e.n - 1)) * (-(999 / 1000 * DP_MIN_R)) := by
        simp only [PowerLawOrifice.calculate, PowerLawOrifice.linearSlope]
        rw [abs_neg, abs_of_nonneg hbelow, if_pos hlt]
      rw [h1, h2,
        show ρ * (e.C * (1001 / 1000 * DP_MIN_R) ^ e.n) * (-1) -
            ρ * (e.C * DP_MIN_R ^ (e.n - 1)) * (-(999 / 1000 * DP_MIN_R))
          = -(ρ * e.C * (1001 / 1000 * DP_MIN_R) ^ e.n -
              ρ * e.C * (999 / 1000) * (DP_MIN_R ^ (e.n - 1) * DP_MIN_R)) from by
          ring, dp_pow_split e.n, abs_neg]
      exact powerGap_bound (ρ * e.C) e.n hM0 hM hn hn1
  · intro d hv hCeff hM
    obtain ⟨_, hn, hn1⟩ := hv
    have hM0 : (0 : ℝ) ≤ 6 / 5 * d.Ceff := by
      have : (0 : ℝ) < d.Ceff := lt_trans (by norm_num) hCeff
      linarith
    have hopen : ¬(d.Ceff < 1 / 10 ^ 15) := not_lt.mpr (le_of_lt hCeff)
    constructor
    · have h1 : (d.calculate (1001 / 1000 * DP_MIN_R) (6 / 5)).1
          = 6 / 5 * d.Ceff * (1001 / 1000 * DP_MIN_R) ^ d.n * 1 := by
        simp only [Damper.calculate]
        rw [if_neg hopen, abs_of_nonneg habove, if_neg hnlt, if_pos habove]
      have h2 : (d.calculate (999 / 1000 * DP_MIN_R) (6 / 5)).1
          = 6 / 5 * d.Ceff * DP_MIN_R ^ d.n / DP_MIN_R *
            (999 / 1000 * DP_MIN_R) := by
        simp only [Damper.calculate, Damper.linearSlope]
        rw [if_neg hopen, abs_of_nonneg hbelow, if_pos hlt, if_pos hCeff]
      rw [h1, h2,
        show 6 / 5 * d.Ceff * (1001 / 1000 * DP_MIN_R) ^ d.n * 1 -
            6 / 5 * d.Ceff * DP_MIN_R ^ d.n / DP_MIN_R * (999 / 1000 * DP_MIN_R)
          = 6 / 5 * d.Ceff * (1001 / 1000 * DP_MIN_R) ^ d.n -
            6 / 5 * d.Ceff * (999 / 1000) * DP_MIN_R ^ d.n from by
          field_simp
          ring]
      exact powerGap_bound (6 / 5 * d.Ceff) d.n hM0 hM hn hn1
    · have h1 : (d.calculate (-(1001 / 1000 * DP_MIN_R)) (6 / 5)).1
          = 6 / 5 * d.Ceff * (1001 / 1000 * DP_MIN_R) ^ d.n * (-1) := by
        simp only [Damper.calculate]
        rw [if_neg hopen, abs_neg, abs_of_nonneg habove, if_neg hnlt,
          if_neg hnneg]
      have h2 : (d.calculate (-(999 / 1000 * DP_MIN_R)) (6 / 5)).1
          = 6 / 5 * d.Ceff * DP_MIN_R ^ d.n / DP_MIN_R *
            (-(999 / 1000 * DP_MIN_R)) := by
        simp only [Damper.calculate, Damper.linearSlope]
        rw [if_neg hopen, abs_neg, abs_of_nonneg hbelow, if_pos hlt,
          if_pos hCeff]
      rw [h1, h2,
        show 6 / 5 * d.Ceff * (1001 / 1000 * DP_MIN_R) ^ d.n * (-1) -
            6 / 5 * d.Ceff * DP_MIN_R ^ d.n / DP_MIN_R * (-(999 / 1000 * DP_MIN_R))
          = -(6 / 5 * d.Ceff * (1001 / 1000 * DP_MIN_R) ^ d.n -
              6 / 5 * d.Ceff * (999 / 1000) * DP_MIN_R ^ d.n) from by
          field_simp
          ring, abs_neg]
      exact powerGap_bound (6 / 5 * d.Ceff) d.n hM0 hM hn hn1
  · intro f hv hM
    obtain ⟨hC, hn, hn1⟩ := hv
    have hM0 : (0 : ℝ) ≤ 6 / 5 * f.C := by linarith
    constructor
    · have h1 : (f.calculate (1001 / 1000 * DP_MIN_R) (6 / 5)).1
          = 6 / 5 * (f.C * (1001 / 1000 * DP_MIN_R) ^ f.n) * 1 := by
        simp only [Filter.calculate]
        rw [abs_of_nonneg habove, if_neg hnlt, if_pos habove]
      have h2 : (f.calculate (999 / 1000 * DP_MIN_R) (6 / 5)).1
          = 6 / 5 * f.C * DP_MIN_R ^ f.n / DP_MIN_R * (999 / 1000 * DP_MIN_R) := by
        simp only [Filter.calculate, Filter.linearSlope]
        rw [abs_of_nonneg hbelow, if_pos hlt]
      rw [h1, h2,
        show 6 / 5 * (f.C * (1001 / 1000 * DP_MIN_R) ^ f.n) * 1 -
            6 / 5 * f.C * DP_MIN_R ^ f.n / DP_MIN_R * (999 / 1000 * DP_MIN_R)
          = 6 / 5 * f.C * (1001 / 1000 * DP_MIN_R) ^ f.n -
            6 / 5 * f.C * (999 / 1000) * DP_MIN_R ^ f.n from by
          field_simp
          ring]
      exact powerGap_bound (6 / 5 * f.C) f.n hM0 hM hn hn1
    · have h1 : (f.calculate (-(1001 / 1000 * DP_MIN_R)) (6 / 5)).1
          = 6 / 5 * (f.C * (1001 / 1000 * DP_MIN_R) ^ f.n) * (-1) := by
        simp only [Filter.calculate]
        rw [abs_neg, abs_of_nonneg habove, if_neg hnlt, if_neg hnneg]
      have h2 : (f.calculate (-(999 / 1000 * DP_MIN_R)) (6 / 5)).1
          = 6 / 5 * f.C * DP_MIN_R ^ f.n / DP_MIN_R *
            (-(999 / 1000 * DP_MIN_R)) := by
        simp only [Filter.calculate, Filter.linearSlope]
        rw [abs_neg, abs_of_nonneg hbelow, if_pos hlt]
      rw [h1, h2,
        show 6 / 5 * (f.C * (1001 / 1000 * DP_MIN_R) ^ f.n) * (-1) -
            6 / 5 * f.C * DP_MIN_R ^ f.n / DP_MIN_R * (-(999 / 1000 * DP_MIN_R))
          = -(6 / 5 * f.C * (1001 / 1000 * DP_MIN_R) ^ f.n -
              6 / 5 * f.C * (999 / 1000) * DP_MIN_R ^ f.n) from by
          field_simp
          ring, abs_neg]
      exact powerGap_bound (6 / 5 * f.C) f.n hM0 hM hn hn1
  · intro w hv hK
    obtain ⟨hCd, hA⟩ := hv
    have hK0 : (0 : ℝ) ≤ w.Cd * w.area := mul_nonneg (le_of_lt hCd) (le_of_lt hA)
    constructor
    · have h1 : (w.calculate (1001 / 1000 * DP_MIN_R) (6 / 5)).1
          = 6 / 5 * (w.Cd * w.area *
            Real.sqrt (2 * (1001 / 1000 * DP_MIN_R) / (6 / 5))) * 1 := by
        simp only [TwoWayFlow.calculate]
        rw [abs_of_nonneg habove, if_neg hnlt, if_pos habove]
      have h2 : (w.calculate (999 / 1000 * DP_MIN_R) (6 / 5)).1
          = 6 / 5 * (w.Cd * w.area * Real.sqrt (2 * DP_MIN_R / (6 / 5))) /
            DP_MIN_R * (999 / 1000 * DP_MIN_R) := by
        simp only [TwoWayFlow.calculate, TwoWayFlow.linearSlope]
        rw [abs_of_nonneg hbelow, if_pos hlt]
      rw [h1, h2,
        show 6 / 5 * (w.Cd * w.area *
              Real.sqrt (2 * (1001 / 1000 * DP_MIN_R) / (6 / 5))) * 1 -
            6 / 5 * (w.Cd * w.area * Real.sqrt (2 * DP_MIN_R / (6 / 5))) /
              DP_MIN_R * (999 / 1000 * DP_MIN_R)
          = 6 / 5 * (w.Cd * w.area *
              Real.sqrt (2 * (1001 / 1000 * DP_MIN_R) / (6 / 5))) -
            6 / 5 * (w.Cd * w.area * Real.sqrt (2 * DP_MIN_R / (6 / 5))) *
              (999 / 1000) from by
          field_simp
          ring]
      exact twowayGap_bound (w.Cd * w.area) hK0 hK
    · have h1 : (w.calculate (-(1001 / 1000 * DP_MIN_R)) (6 / 5)).1
          = 6 / 5 * (w.Cd * w.area *
            Real.sqrt (2 * (1001 / 1000 * DP_MIN_R) / (6 / 5))) * (-1) := by
        simp only [TwoWayFlow.calculate]
        rw [abs_neg, abs_of_nonneg habove, if_neg hnlt, if_neg hnneg]
      have h2 : (w.calculate (-(999 / 1000 * DP_MIN_R)) (6 / 5)).1
          = 6 / 5 * (w.Cd * w.area * Real.sqrt (2 * DP_MIN_R / (6 / 5))) /
            DP_MIN_R * (-(999 / 1000 * DP_MIN_R)) := by
        simp only [TwoWayFlow.calculate, TwoWayFlow.linearSlope]
        rw [abs_neg, abs_of_nonneg hbelow, if_pos hlt]
      rw [h1, h2,
        show 6 / 5 * (w.Cd * w.area *
              Real.sqrt (2 * (1001 / 1000 * DP_MIN_R) / (6 / 5))) * (-1) -
            6 / 5 * (w.Cd * w.area * Real.sqrt (2 * DP_MIN_R / (6 / 5))) /
              DP_MIN_R * (-(999 / 1000 * DP_MIN_R))
          = -(6 / 5 * (w.Cd * w.area *
                Real.sqrt (2 * (1001 / 1000 * DP_MIN_R) / (6 / 5))) -
              6 / 5 * (w.Cd * w.area * Real.sqrt (2 * DP_MIN_R / (6 / 5))) *
                (999 / 1000)) from by
          field_simp
          ring, abs_neg]
      exact twowayGap_bound (w.Cd * w.area) hK0 hK

/-- C9 witness: an environment whose airflow solve never converges (its
SolverResult keeps the default converged = false) still completes a run with
an always-true progress callback. -/
theorem c9_run_defies_nonconvergence_witness :
    (0 : ℚ) < ({ startTime := 0, endTime := 1, timeStep := 1,
                 outputInterval := 1 } : TransientConfig).timeStep ∧
    (run (⟨fun n => ({}, n), fun n a _ => (n, a), fun a _ _ _ => ({}, a),
          fun _ => [], fun a _ _ => a, fun _ a => a⟩ : DriverEnv Unit)
        [] false false (fun _ _ => true)
        { startTime := 0, endTime := 1, timeStep := 1, outputInterval := 1 }
        {} ()).completed = true :=
  ⟨by norm_num,
   (c9_run_defies_nonconvergence _ _ _ _ _ _ (by norm_num)).1
     (fun _ _ => rfl) _ _⟩

end Contam
